import Mathlib

/-!
# VoxelEngine-Cpp: entity manager and ogg stream reader

A shallow embedding of `src/objects/Entities.cpp` and of `OggStream::read`
from `src/coders/ogg.cpp`.

Conventions of the embedding

* `float` scalars are exact rationals (`ℚ`): rounding, infinities and NaN are
  outside the model.
* Machine counters wrap: the id counter modulo the number of values of
  `entityid_t`, the version of a storage slot after the highest version the
  storage layer can represent.
* Collaborators that the manager only calls (physics solver, scripting
  runtime, frustum, model batch, `glm::length`, `ov_read`) are parameters;
  calls into the scripting runtime and the batches are recorded as the list of
  calls an operation issues, in order, and are assumed not to call back into
  the manager.
* Dereferencing an empty `std::optional` or reading a component an entity
  does not have is undefined behaviour in the source; the embedding returns
  `none` there.
-/

namespace VoxelEngine

/-! ## glm vectors and matrices (column-major, as in glm) -/

/-- A `glm::vec3`. -/
structure Vec3 where
  x : ℚ
  y : ℚ
  z : ℚ
deriving DecidableEq, Repr

/-- A `glm::vec4`. -/
structure Vec4 where
  x : ℚ
  y : ℚ
  z : ℚ
  w : ℚ
deriving DecidableEq, Repr

/-- A `glm::mat3`: three columns. -/
structure Mat3 where
  c0 : Vec3
  c1 : Vec3
  c2 : Vec3
deriving DecidableEq, Repr

/-- A `glm::mat4`: four columns. -/
structure Mat4 where
  c0 : Vec4
  c1 : Vec4
  c2 : Vec4
  c3 : Vec4
deriving DecidableEq, Repr

namespace Vec3

/-- The vector `glm::vec3(s)` with all components equal to `s`. -/
def splat (s : ℚ) : Vec3 := ⟨s, s, s⟩

/-- Componentwise `a + b`. -/
def add (a b : Vec3) : Vec3 := ⟨a.x + b.x, a.y + b.y, a.z + b.z⟩

/-- Componentwise `a - b`. -/
def sub (a b : Vec3) : Vec3 := ⟨a.x - b.x, a.y - b.y, a.z - b.z⟩

/-- Division of every component by a scalar, `v / s`. -/
def divScalar (v : Vec3) (s : ℚ) : Vec3 := ⟨v.x / s, v.y / s, v.z / s⟩

/-- Multiplication of every component by a scalar, `v * s`. -/
def mulScalar (v : Vec3) (s : ℚ) : Vec3 := ⟨v.x * s, v.y * s, v.z * s⟩

end Vec3

namespace Vec4

/-- Componentwise `a + b`. -/
def add (a b : Vec4) : Vec4 := ⟨a.x + b.x, a.y + b.y, a.z + b.z, a.w + b.w⟩

/-- Multiplication of every component by a scalar, `v * s`. -/
def mulScalar (v : Vec4) (s : ℚ) : Vec4 := ⟨v.x * s, v.y * s, v.z * s, v.w * s⟩

/-- The constructor `vec4(v, w)` from a `vec3` and a scalar. -/
def ofVec3 (v : Vec3) (w : ℚ) : Vec4 := ⟨v.x, v.y, v.z, w⟩

end Vec4

namespace Mat3

/-- The matrix `glm::mat3(1.0f)`. -/
def identity : Mat3 := ⟨⟨1, 0, 0⟩, ⟨0, 1, 0⟩, ⟨0, 0, 1⟩⟩

end Mat3

namespace Mat4

/-- The matrix `glm::mat4(1.0f)`. -/
def identity : Mat4 := ⟨⟨1, 0, 0, 0⟩, ⟨0, 1, 0, 0⟩, ⟨0, 0, 1, 0⟩, ⟨0, 0, 0, 1⟩⟩

/-- The zero matrix (a value-initialised `glm::mat4`). -/
def zero : Mat4 := ⟨⟨0, 0, 0, 0⟩, ⟨0, 0, 0, 0⟩, ⟨0, 0, 0, 0⟩, ⟨0, 0, 0, 0⟩⟩

/-- The conversion `glm::mat4(m)` of a `mat3`: the 3x3 block embedded in the
upper left corner, completed by the identity. -/
def ofMat3 (m : Mat3) : Mat4 :=
  ⟨Vec4.ofVec3 m.c0 0, Vec4.ofVec3 m.c1 0, Vec4.ofVec3 m.c2 0, ⟨0, 0, 0, 1⟩⟩

/-- The linear combination of the columns of `a` with the coefficients `v`
(the matrix-vector product `a * v`). -/
def mulVec (a : Mat4) (v : Vec4) : Vec4 :=
  ((a.c0.mulScalar v.x).add (a.c1.mulScalar v.y)).add
    ((a.c2.mulScalar v.z).add (a.c3.mulScalar v.w))

/-- The matrix product `a * b` of glm: column `j` of the result is `a * b[j]`. -/
def mul (a b : Mat4) : Mat4 :=
  ⟨a.mulVec b.c0, a.mulVec b.c1, a.mulVec b.c2, a.mulVec b.c3⟩

/-- The translation matrix of `v`: identity with last column `(v, 1)`. -/
def translation (v : Vec3) : Mat4 :=
  ⟨⟨1, 0, 0, 0⟩, ⟨0, 1, 0, 0⟩, ⟨0, 0, 1, 0⟩, ⟨v.x, v.y, v.z, 1⟩⟩

/-- The scaling matrix of `v`: the diagonal matrix `diag(v.x, v.y, v.z, 1)`. -/
def scaling (v : Vec3) : Mat4 :=
  ⟨⟨v.x, 0, 0, 0⟩, ⟨0, v.y, 0, 0⟩, ⟨0, 0, v.z, 0⟩, ⟨0, 0, 0, 1⟩⟩

end Mat4

namespace glm

/-- The function `glm::translate(m, v)`: `m` with its last column replaced by
`m[0] * v[0] + m[1] * v[1] + m[2] * v[2] + m[3]`. -/
def translate (m : Mat4) (v : Vec3) : Mat4 :=
  ⟨m.c0, m.c1, m.c2,
    (((m.c0.mulScalar v.x).add (m.c1.mulScalar v.y)).add (m.c2.mulScalar v.z)).add m.c3⟩

/-- The function `glm::scale(m, v)`: the first three columns of `m` scaled by
the components of `v`. -/
def scale (m : Mat4) (v : Vec3) : Mat4 :=
  ⟨m.c0.mulScalar v.x, m.c1.mulScalar v.y, m.c2.mulScalar v.z, m.c3⟩

end glm

/-! ## Components -/

/-- The `Transform` component. -/
structure Transform where
  pos : Vec3
  size : Vec3
  rot : Mat3
  combined : Mat4
deriving DecidableEq, Repr

namespace Transform

/-- The method `Transform::refresh`. -/
def refresh (t : Transform) : Transform :=
  let t := { t with combined := Mat4.identity }
  let t := { t with combined := glm.translate t.combined t.pos }
  let t := { t with combined := glm.scale t.combined t.size }
  { t with combined := t.combined.mul (Mat4.ofMat3 t.rot) }

end Transform

/-- An entity definition (`EntityDef`, declared in objects/EntityDef.hpp): of
its data the manager reads only the hitbox extents. -/
structure EntityDef where
  name : String
  hitbox : Vec3
deriving DecidableEq, Repr

/-- The physics working state of a rigid body (`Hitbox`). -/
structure Hitbox where
  position : Vec3
  halfsize : Vec3
  velocity : Vec3
  linearDamping : ℚ
  grounded : Bool
deriving DecidableEq, Repr

/-- Modelled from the spec: the construction `Hitbox {position, halfsize}`
(physics/Hitbox.hpp is not among the sources). The spec gives a new hitbox the
given position and half-size; it starts at rest and airborne, as the
end-to-end scenario of the spec expects. The initial damping coefficient is
not fixed by the spec and is overwritten by `updatePhysics` before it is read. -/
def Hitbox.create (position halfsize : Vec3) : Hitbox :=
  { position := position, halfsize := halfsize, velocity := Vec3.splat 0,
    linearDamping := 0, grounded := false }

/-- The `Rigidbody` component. -/
structure Rigidbody where
  enabled : Bool
  hitbox : Hitbox
deriving DecidableEq, Repr

/-- The set of script callbacks bound to an entity (`entity_funcs_set`,
a bit set; `entity_funcs_set {}` is `0`). -/
abbrev FuncsSet := Nat

/-- A scripting environment handle (`scriptenv`); `nullptr` is `none`. -/
abbrev ScriptEnv := Option Nat

/-- The `Scripting` component. -/
structure Scripting where
  funcsset : FuncsSet
  env : ScriptEnv
deriving DecidableEq, Repr

/-- The `EntityId` component: the external id and the definition. -/
structure EntityId where
  uid : Nat
  edef : EntityDef
deriving DecidableEq, Repr

/-! ## Component storage (the `entt::registry`) -/

/-- An `entt::entity`: the index of a storage slot and the version of the slot
at the time the identifier was issued. -/
structure EnttEntity where
  index : Nat
  version : Nat
deriving DecidableEq, Repr

/-- One storage slot: its current version, whether an entity lives in it, and
the components of that entity. -/
structure Slot where
  version : Nat
  alive : Bool
  eid : Option EntityId
  transform : Option Transform
  rigidbody : Option Rigidbody
  scripting : Option Scripting
deriving DecidableEq, Repr

/-- A slot that has just been given to a new entity without components. -/
def Slot.fresh (version : Nat) : Slot :=
  { version := version, alive := true, eid := none, transform := none,
    rigidbody := none, scripting := none }

/-- A slot after its entity was destroyed: the version is bumped, so that
identifiers issued for the slot before stop being valid. The version is kept
in a field of fixed width: after `maxVersion` it starts again at 0. -/
def Slot.release (maxVersion : Nat) (sl : Slot) : Slot :=
  { version := (sl.version + 1) % (maxVersion + 1), alive := false, eid := none,
    transform := none, rigidbody := none, scripting := none }

/-- The `entt::registry`: the slots, the indices of the released slots, most
recently released first, and the highest version a slot can carry. The last
is a parameter of the embedding, fixed when the registry is made: the width
of entt's version field is not visible in the sources (entt's default 32-bit
identifiers keep the version in 12 bits). -/
structure Registry where
  slots : List Slot
  free : List Nat
  maxVersion : Nat
deriving DecidableEq, Repr

namespace Registry

/-- An empty registry. -/
def empty (maxVersion : Nat) : Registry := { slots := [], free := [], maxVersion := maxVersion }

/-- The query `registry.valid(entity)`. -/
def valid (r : Registry) (e : EnttEntity) : Bool :=
  match r.slots[e.index]? with
  | some sl => sl.alive && sl.version == e.version
  | none => false

/-- The call `registry.create()`: the most recently released slot is recycled
under its current version; without a released slot a new one is appended. -/
def create (r : Registry) : EnttEntity × Registry :=
  match r.free with
  | [] => (⟨r.slots.length, 0⟩, { r with slots := r.slots ++ [Slot.fresh 0], free := [] })
  | i :: rest =>
    match r.slots[i]? with
    | some sl =>
      (⟨i, sl.version⟩, { r with slots := r.slots.set i (Slot.fresh sl.version), free := rest })
    | none => (⟨i, 0⟩, { r with free := rest })

/-- The call `registry.destroy(entity)`. -/
def destroy (r : Registry) (e : EnttEntity) : Registry :=
  if r.valid e then
    { r with
      slots := r.slots.modify (Slot.release r.maxVersion) e.index, free := e.index :: r.free }
  else r

/-- Apply `f` to the slot of a valid entity. -/
def patch (r : Registry) (e : EnttEntity) (f : Slot → Slot) : Registry :=
  if r.valid e then { r with slots := r.slots.modify f e.index } else r

/-- The call `registry.emplace<EntityId>(entity, ...)`. -/
def emplaceEntityId (r : Registry) (e : EnttEntity) (c : EntityId) : Registry :=
  r.patch e fun sl => { sl with eid := some c }

/-- The call `registry.emplace<Transform>(entity, ...)`. -/
def emplaceTransform (r : Registry) (e : EnttEntity) (c : Transform) : Registry :=
  r.patch e fun sl => { sl with transform := some c }

/-- The call `registry.emplace<Rigidbody>(entity, ...)`. -/
def emplaceRigidbody (r : Registry) (e : EnttEntity) (c : Rigidbody) : Registry :=
  r.patch e fun sl => { sl with rigidbody := some c }

/-- The call `registry.emplace<Scripting>(entity, ...)`, also used for the
write through the reference it returns. -/
def emplaceScripting (r : Registry) (e : EnttEntity) (c : Scripting) : Registry :=
  r.patch e fun sl => { sl with scripting := some c }

/-- The slot of a valid entity. -/
def slotOf (r : Registry) (e : EnttEntity) : Option Slot :=
  if r.valid e then r.slots[e.index]? else none

/-- The access `registry.get<EntityId>(entity)`. -/
def getEntityId (r : Registry) (e : EnttEntity) : Option EntityId :=
  (r.slotOf e).bind Slot.eid

/-- The access `registry.get<Transform>(entity)`. -/
def getTransform (r : Registry) (e : EnttEntity) : Option Transform :=
  (r.slotOf e).bind Slot.transform

/-- The access `registry.get<Rigidbody>(entity)`. -/
def getRigidbody (r : Registry) (e : EnttEntity) : Option Rigidbody :=
  (r.slotOf e).bind Slot.rigidbody

/-- The access `registry.get<Scripting>(entity)`. -/
def getScripting (r : Registry) (e : EnttEntity) : Option Scripting :=
  (r.slotOf e).bind Slot.scripting

end Registry

/-! ## The identity map (`std::unordered_map<entityid_t, entt::entity>`) -/

/-- The identity map, as the list of its entries. -/
abbrev IdMap := List (Nat × EnttEntity)

namespace IdMap

/-- The lookup `entities.find(id)`. -/
def find : IdMap → Nat → Option EnttEntity
  | [], _ => none
  | (k, h) :: rest, id => if k = id then some h else find rest id

/-- The assignment `entities[id] = entity`. -/
def assign : IdMap → Nat → EnttEntity → IdMap
  | [], id, h => [(id, h)]
  | (k, v) :: rest, id, h => if k = id then (k, h) :: rest else (k, v) :: assign rest id h

end IdMap

/-! ## Collaborators and the calls issued to them -/

/-- The `Entity` view handed to collaborators: the external id and the
storage handle. -/
structure Entity where
  id : Nat
  entity : EnttEntity
deriving DecidableEq, Repr

/-- A call into the scripting runtime. -/
inductive ScriptCall where
  | on_entity_spawn (edef : EntityDef) (id : Nat) (funcsset : FuncsSet)
  | on_entity_despawn (edef : EntityDef) (entity : Entity)
  | on_entity_grounded (entity : Entity) (force : ℚ)
  | on_entity_fall (entity : Entity)
  | on_entities_update
deriving DecidableEq, Repr

/-- A call on the `ModelBatch`; a model is named by the key it was fetched
under. -/
inductive BatchCall where
  | pushMatrix (m : Mat4)
  | draw (model : String)
  | popMatrix
deriving DecidableEq, Repr

/-- A call on the `LineBatch`. -/
inductive LineCall where
  | lineWidth (w : ℚ)
  | box (center size : Vec3) (color : Vec4)
deriving DecidableEq, Repr

/-- What the manager is given from outside. `physicsStep hitbox delta substeps
shifting gravityScale collisions` is `level->physics->step` on `level->chunks`
and returns the hitbox as the solver leaves it; `length` is `glm::length`;
`onEntitySpawn edef id funcsset` is `scripting::on_entity_spawn` and returns
the environment handle together with the callback set as the hook leaves it. -/
structure Collab where
  physicsStep : Hitbox → ℚ → Nat → Bool → ℚ → Bool → Hitbox
  length : Vec3 → ℚ
  onEntitySpawn : EntityDef → Nat → FuncsSet → ScriptEnv × FuncsSet

/-- The `Frustum` of a render pass, through its query `isBoxVisible`. -/
structure Frustum where
  isBoxVisible : Vec3 → Vec3 → Bool

/-! ## The entity manager -/

/-- The number of values of `entityid_t`, an unsigned 64-bit integer (its
declaration, in typedefs.hpp, is not among the sources): the id counter wraps
to 0 after `entityidSize - 1`. -/
def entityidSize : Nat := 2 ^ 64

/-- The state of an `Entities` manager. -/
structure Entities where
  registry : Registry
  entities : IdMap
  nextID : Nat
deriving DecidableEq, Repr

namespace Entities

/-- Modelled from the spec: a new manager (the constructor leaves every member
at the initialiser of Entities.hpp, which is not among the sources). Storage
and identity map are empty and the id counter starts at an
implementation-defined base; `maxVersion` is the highest slot version of the
storage. -/
def init (base maxVersion : Nat) : Entities :=
  { registry := Registry.empty maxVersion, entities := [], nextID := base }

/-- Modelled from the spec: the lookup `Entities::get(id)` (defined in
Entities.hpp, which is not among the sources). The id is looked up in the
identity map and the handle found is revalidated against the storage: an
`Entity` is returned only for a live slot. -/
def get (s : Entities) (id : Nat) : Option Entity :=
  match IdMap.find s.entities id with
  | some h => if s.registry.valid h then some ⟨id, h⟩ else none
  | none => none

end Entities

namespace Entity

/-- Modelled from the spec: `Entity::isValid` (Entities.hpp): the view is
valid only while the underlying storage slot is live. -/
def isValid (e : Entity) (s : Entities) : Bool := s.registry.valid e.entity

/-- Modelled from the spec: `Entity::getDef` (Entities.hpp): the definition
held by the `EntityId` component. -/
def getDef (e : Entity) (s : Entities) : Option EntityDef :=
  (s.registry.getEntityId e.entity).map EntityId.edef

/-- Modelled from the spec: `Entity::getHandler` (Entities.hpp): the storage
handle. -/
def getHandler (e : Entity) : EnttEntity := e.entity

/-- Modelled from the spec: `Entity::getTransform` (Entities.hpp). -/
def getTransform (e : Entity) (s : Entities) : Option Transform :=
  s.registry.getTransform e.entity

/-- Modelled from the spec: `Entity::getRigidbody` (Entities.hpp). -/
def getRigidbody (e : Entity) (s : Entities) : Option Rigidbody :=
  s.registry.getRigidbody e.entity

end Entity

namespace Entities

/-- The method `Entities::spawn`: the returned id, the new state and the
scripting calls issued. -/
def spawn (c : Collab) (s : Entities) (edef : EntityDef) (pos : Vec3) :
    Nat × Entities × List ScriptCall :=
  let entity := s.registry.create.1
  let registry := s.registry.create.2
  let size := Vec3.splat 1
  let id := s.nextID
  let registry := registry.emplaceEntityId entity ⟨id, edef⟩
  let registry := registry.emplaceTransform entity
    { pos := pos, size := size.divScalar 4, rot := Mat3.identity, combined := Mat4.zero }
  let registry := registry.emplaceRigidbody entity ⟨true, Hitbox.create pos edef.hitbox⟩
  let registry := registry.emplaceScripting entity ⟨0, none⟩
  let entities := IdMap.assign s.entities id entity
  let hook := c.onEntitySpawn edef id 0
  let registry := registry.emplaceScripting entity ⟨hook.2, hook.1⟩
  (id, { registry := registry, entities := entities,
         nextID := (s.nextID + 1) % entityidSize },
    [ScriptCall.on_entity_spawn edef id 0])

/-- The method `Entities::despawn`; `none` where the source dereferences an
empty optional or reads a missing component. -/
def despawn (s : Entities) (id : Nat) : Option (Entities × List ScriptCall) :=
  match s.get id with
  | some entity =>
    match entity.getDef s with
    | some edef =>
      match s.get id with
      | some again =>
        some ({ s with registry := s.registry.destroy again.getHandler },
          [ScriptCall.on_entity_despawn edef entity])
      | none => none
    | none => none
  | none => some (s, [])

/-- The loop of `Entities::clean` over the entries of the identity map. -/
def cleanLoop (r : Registry) : IdMap → IdMap
  | [] => []
  | it :: rest => if r.valid it.2 then it :: cleanLoop r rest else cleanLoop r rest

/-- The method `Entities::clean`. -/
def clean (s : Entities) : Entities :=
  { s with entities := cleanLoop s.registry s.entities }

/-- The body of the loop of `Entities::updatePhysics` for one entity of the
view: the components as the iteration leaves them and the calls issued. -/
def updatePhysicsEntity (c : Collab) (s : Entities) (delta : ℚ) (eid : EntityId)
    (transform : Transform) (rigidbody : Rigidbody) :
    Option (Transform × Rigidbody × List ScriptCall) :=
  if !rigidbody.enabled then some (transform, rigidbody, [])
  else
    let hitbox := rigidbody.hitbox
    let prevVel := hitbox.velocity
    let grounded := hitbox.grounded
    let hitbox := c.physicsStep hitbox delta 10 false 1 true
    let hitbox := { hitbox with linearDamping := if hitbox.grounded then 24 else 0 }
    let transform := { transform with pos := hitbox.position }
    let first : Option (List ScriptCall) :=
      if hitbox.grounded && !grounded then
        (s.get eid.uid).map fun e =>
          [ScriptCall.on_entity_grounded e (c.length (prevVel.sub hitbox.velocity))]
      else some []
    let second : Option (List ScriptCall) :=
      if !hitbox.grounded && grounded then
        (s.get eid.uid).map fun e => [ScriptCall.on_entity_fall e]
      else some []
    match first, second with
    | some a, some b => some (transform, { rigidbody with hitbox := hitbox }, a ++ b)
    | _, _ => none

/-- One slot in the pass of `Entities::updatePhysics`: the slot is in
`registry.view<EntityId, Transform, Rigidbody>()` when it is live and has the
three components. -/
def updatePhysicsSlot (c : Collab) (s : Entities) (delta : ℚ) (sl : Slot) :
    Option (Slot × List ScriptCall) :=
  match sl.alive, sl.eid, sl.transform, sl.rigidbody with
  | true, some eid, some transform, some rigidbody =>
    (updatePhysicsEntity c s delta eid transform rigidbody).map fun r =>
      ({ sl with transform := some r.1, rigidbody := some r.2.1 }, r.2.2)
  | _, _, _, _ => some (sl, [])

/-- The iteration of `Entities::updatePhysics` over the slots, in slot order.
The lookups `get(eid.uid)` read the identity map and the liveness of slots,
which the pass does not change, so they are made on the state `s` the pass
started from. -/
def updatePhysicsLoop (c : Collab) (s : Entities) (delta : ℚ) :
    List Slot → Option (List Slot × List ScriptCall)
  | [] => some ([], [])
  | sl :: rest =>
    match updatePhysicsSlot c s delta sl, updatePhysicsLoop c s delta rest with
    | some a, some b => some (a.1 :: b.1, a.2 ++ b.2)
    | _, _ => none

/-- The method `Entities::updatePhysics`. -/
def updatePhysics (c : Collab) (s : Entities) (delta : ℚ) :
    Option (Entities × List ScriptCall) :=
  (updatePhysicsLoop c s delta s.registry.slots).map fun r =>
    ({ s with registry := { s.registry with slots := r.1 } }, r.2)

/-- The method `Entities::update`. -/
def update (_s : Entities) : List ScriptCall := [ScriptCall.on_entities_update]

/-- The method `Entities::renderDebug`: the calls on the line batch. -/
def renderDebug (s : Entities) : List LineCall :=
  LineCall.lineWidth 1 ::
    s.registry.slots.flatMap fun sl =>
      match sl.alive, sl.transform, sl.rigidbody with
      | true, some _, some rigidbody =>
        [LineCall.box rigidbody.hitbox.position (rigidbody.hitbox.halfsize.mulScalar 2)
          ⟨1, 1, 1, 1⟩]
      | _, _, _ => []

/-- The body of the loop of `Entities::render` for one entity of the view. -/
def renderEntity (frustum : Frustum) (model : String) (transform : Transform) :
    Transform × List BatchCall :=
  let pos := transform.pos
  let size := transform.size
  if frustum.isBoxVisible (pos.sub size) (pos.add size) then
    let transform := transform.refresh
    (transform,
      [BatchCall.pushMatrix transform.combined, BatchCall.draw model, BatchCall.popMatrix])
  else (transform, [])

/-- One slot in the pass of `Entities::render`: the slot is in
`registry.view<Transform>()` when it is live and has a `Transform`. -/
def renderSlot (frustum : Frustum) (model : String) (sl : Slot) : Slot × List BatchCall :=
  match sl.alive, sl.transform with
  | true, some transform =>
    ({ sl with transform := some (renderEntity frustum model transform).1 },
      (renderEntity frustum model transform).2)
  | _, _ => (sl, [])

/-- The iteration of `Entities::render` over the slots, in slot order. -/
def renderLoop (frustum : Frustum) (model : String) : List Slot → List Slot × List BatchCall
  | [] => ([], [])
  | sl :: rest =>
    ((renderSlot frustum model sl).1 :: (renderLoop frustum model rest).1,
      (renderSlot frustum model sl).2 ++ (renderLoop frustum model rest).2)

/-- The method `Entities::render`; the model is the asset fetched under the
key "cube". -/
def render (s : Entities) (frustum : Frustum) : Entities × List BatchCall :=
  ({ s with registry :=
      { s.registry with slots := (renderLoop frustum "cube" s.registry.slots).1 } },
    (renderLoop frustum "cube" s.registry.slots).2)

end Entities

/-- The method `Entity::destroy`. -/
def Entity.destroy (e : Entity) (s : Entities) : Option (Entities × List ScriptCall) :=
  if e.isValid s then s.despawn e.id else some (s, [])

/-! ## The representation invariant -/

namespace Entities

/-- The representation invariant of the manager: the keys of the identity map
are distinct, the released slot indices name existing slots, and every live
slot carries an `EntityId` whose id the identity map sends to the handle of
that slot. -/
structure Inv (s : Entities) : Prop where
  keys_nodup : (s.entities.map Prod.fst).Nodup
  free_lt : ∀ j ∈ s.registry.free, j < s.registry.slots.length
  live_mapped : ∀ i sl, s.registry.slots[i]? = some sl → sl.alive = true →
    ∃ eid, sl.eid = some eid ∧ IdMap.find s.entities eid.uid = some ⟨i, sl.version⟩

/-- The id counter has not wrapped onto the ids it issued: every key of the
identity map lies below the counter. -/
def Fresh (s : Entities) : Prop := ∀ p ∈ s.entities, p.1 < s.nextID

/-- The slot of the entity created by `spawn c s edef pos`, as the call
leaves it. -/
def spawnSlot (c : Collab) (s : Entities) (edef : EntityDef) (pos : Vec3) : Slot :=
  { version := s.registry.create.1.version
    alive := true
    eid := some ⟨s.nextID, edef⟩
    transform := some
      { pos := pos, size := (Vec3.splat 1).divScalar 4, rot := Mat3.identity,
        combined := Mat4.zero }
    rigidbody := some ⟨true, Hitbox.create pos edef.hitbox⟩
    scripting := some ⟨(c.onEntitySpawn edef s.nextID 0).2, (c.onEntitySpawn edef s.nextID 0).1⟩ }

end Entities

/-! ## What the spec expects of the per-frame passes -/

/-- The entity a scripting call is about, for the calls that are about one. -/
def ScriptCall.entity? : ScriptCall → Option Entity
  | ScriptCall.on_entity_despawn _ e => some e
  | ScriptCall.on_entity_grounded e _ => some e
  | ScriptCall.on_entity_fall e => some e
  | _ => none

/-- Whether a scripting call is about the entity `e`. -/
def ScriptCall.concerns (e : Entity) (call : ScriptCall) : Bool :=
  call.entity? == some e

/-- The notifications the spec expects of one physics step of the entity `e`,
whose hitbox was `pre` before the step and is `post` after it: one "grounded"
notification carrying the norm of the velocity change on landing, one "fall"
notification on take-off, nothing while the grounded flag is sustained. -/
def expectedNotifications (c : Collab) (e : Entity) (pre post : Hitbox) : List ScriptCall :=
  if pre.grounded = false ∧ post.grounded = true then
    [ScriptCall.on_entity_grounded e (c.length (pre.velocity.sub post.velocity))]
  else if pre.grounded = true ∧ post.grounded = false then [ScriptCall.on_entity_fall e]
  else []

/-- The batch calls the spec expects of the render pass for one entity with
the transform `t`: nothing when its box is outside the frustum, otherwise one
push of `translate(pos) * scale(size) * rotate(rot)`, one draw, one pop. -/
def expectedDraw (frustum : Frustum) (t : Transform) : List BatchCall :=
  if frustum.isBoxVisible (t.pos.sub t.size) (t.pos.add t.size) then
    [BatchCall.pushMatrix
        (((Mat4.translation t.pos).mul (Mat4.scaling t.size)).mul (Mat4.ofMat3 t.rot)),
      BatchCall.draw "cube", BatchCall.popMatrix]
  else []

/-- The transform of a slot that is in the view of the render pass. -/
def Slot.viewTransform (sl : Slot) : Option Transform :=
  if sl.alive then sl.transform else none

/-! ## Sequences of lifecycle calls and reachable states -/

/-- A lifecycle call on the manager. -/
inductive Op where
  | spawn (edef : EntityDef) (pos : Vec3)
  | despawn (id : Nat)
  | clean
deriving DecidableEq, Repr

/-- The number of spawn calls in a sequence of lifecycle calls. -/
def Op.spawnCount : List Op → Nat
  | [] => 0
  | Op.spawn _ _ :: ops => Op.spawnCount ops + 1
  | Op.despawn _ :: ops => Op.spawnCount ops
  | Op.clean :: ops => Op.spawnCount ops

/-- The number of despawn calls that come before the first clean call of a
sequence of lifecycle calls. -/
def Op.despawnsBeforeClean : List Op → Nat
  | [] => 0
  | Op.spawn _ _ :: ops => Op.despawnsBeforeClean ops
  | Op.despawn _ :: ops => Op.despawnsBeforeClean ops + 1
  | Op.clean :: _ => 0

/-- What a sequence of lifecycle calls leaves behind: the final state, the ids
the spawn calls returned, in call order, and the scripting calls issued. -/
structure Trace where
  state : Entities
  ids : List Nat
  calls : List ScriptCall
deriving DecidableEq, Repr

namespace Entities

/-- Run a sequence of lifecycle calls from the state `s`. -/
def run (c : Collab) : List Op → Entities → Option Trace
  | [], s => some ⟨s, [], []⟩
  | Op.spawn edef pos :: ops, s =>
    (run c ops (s.spawn c edef pos).2.1).map fun t =>
      ⟨t.state, (s.spawn c edef pos).1 :: t.ids, (s.spawn c edef pos).2.2 ++ t.calls⟩
  | Op.despawn id :: ops, s =>
    match s.despawn id with
    | some r => (run c ops r.1).map fun t => ⟨t.state, t.ids, r.2 ++ t.calls⟩
    | none => none
  | Op.clean :: ops, s => run c ops s.clean

/-- The states a manager can be in while its id counter has not run out: a
new manager, whose counter starts at a value of `entityid_t`, and what the
manager's methods make of a reachable state, a spawn being followed as long
as it does not wrap the counter to 0. (After a wrap the counter issues again
ids that entities of the manager may still hold.) -/
inductive Reachable (c : Collab) : Entities → Prop where
  | init (base maxVersion : Nat) :
      base < entityidSize → Reachable c (Entities.init base maxVersion)
  | spawn {s : Entities} (edef : EntityDef) (pos : Vec3) :
      Reachable c s → s.nextID + 1 < entityidSize → Reachable c (s.spawn c edef pos).2.1
  | despawn {s : Entities} (id : Nat) (r : Entities × List ScriptCall) :
      Reachable c s → s.despawn id = some r → Reachable c r.1
  | clean {s : Entities} : Reachable c s → Reachable c s.clean
  | updatePhysics {s : Entities} (delta : ℚ) (r : Entities × List ScriptCall) :
      Reachable c s → s.updatePhysics c delta = some r → Reachable c r.1
  | render {s : Entities} (frustum : Frustum) :
      Reachable c s → Reachable c (s.render frustum).1

end Entities

namespace Entities

/-- The id `id` is retired: the identity map holds it for no handle but `h`,
and the slot of `h` has been released at least once and at most `j` times
since `h` was issued. -/
structure Retired (s : Entities) (id : Nat) (h : EnttEntity) (j : Nat) : Prop where
  entry : ∀ h', (id, h') ∈ s.entities → h' = h
  bumped : ∃ sl i, s.registry.slots[h.index]? = some sl ∧ 1 ≤ i ∧ i ≤ j
    ∧ sl.version = (h.version + i) % (s.registry.maxVersion + 1)

/-- The storage is the single slot 0, released, with the version `k` releases
after `v`; the identity map still sends `id` to the handle of slot 0 under
version `v`, and the id counter has not wrapped. -/
structure Churned (s : Entities) (id v k : Nat) : Prop where
  inv : s.Inv
  fresh : s.Fresh
  free : s.registry.free = [0]
  slot : ∃ sl, s.registry.slots[0]? = some sl ∧ sl.alive = false
    ∧ sl.version = (v + k) % (s.registry.maxVersion + 1)
  entry : IdMap.find s.entities id = some ⟨0, v⟩
  issued : id < s.nextID

/-- The identity map has no entry for the id `id`. -/
def Absent (s : Entities) (id : Nat) : Prop := ∀ h, (id, h) ∉ s.entities

/-- There is room in the id counter for the spawn calls of `ops`: either
there is none, or the counter has not wrapped onto the ids it issued and the
ids the calls take all lie below `entityidSize`. -/
def Room (s : Entities) (ops : List Op) : Prop :=
  Op.spawnCount ops = 0 ∨ (s.Fresh ∧ s.nextID + Op.spawnCount ops ≤ entityidSize)

end Entities

/-! ## The end-to-end scenario of the spec -/

namespace Scenario

/-- A physics stub that grounds the hitbox, stops it and puts it at
`(0, -0.05, 0)`. The stand-in for `glm::length` is `|x| + |y| + |z|`, which is
the Euclidean norm on the vectors along a coordinate axis, the zero vector
among them; the spawn hook binds nothing. -/
def stub : Collab where
  physicsStep := fun hb _ _ _ _ _ =>
    { hb with grounded := true, velocity := ⟨0, 0, 0⟩, position := ⟨0, -1 / 20, 0⟩ }
  length := fun v => |v.x| + |v.y| + |v.z|
  onEntitySpawn := fun _ _ funcsset => (none, funcsset)

/-- A definition whose hitbox half-extent is `(0.5, 0.5, 0.5)`. -/
def crate : EntityDef := { name := "crate", hitbox := ⟨1 / 2, 1 / 2, 1 / 2⟩ }

/-- A manager with one entity, spawned at the origin under id 1; the storage
has the slot versions 0 to 4094. -/
def spawned : Entities := ((Entities.init 1 4094).spawn stub crate ⟨0, 0, 0⟩).2.1

/-- The manager after the entity with id 1 was despawned. -/
def despawned : Entities :=
  { spawned with registry := spawned.registry.destroy ⟨0, 0⟩ }

/-- A manager with two entities: id 1 at the origin and id 2 at `(1, 1, 1)`. -/
def pair : Entities := (spawned.spawn stub crate ⟨1, 1, 1⟩).2.1

/-- The sequence of `n` rounds of spawning an entity and despawning it again,
for a counter that issues the ids from `id` on. -/
def churn : Nat → Nat → List Op
  | 0, _ => []
  | n + 1, id => Op.spawn crate ⟨0, 0, 0⟩ :: Op.despawn id :: churn n (id + 1)

/-- A frustum that sees the boxes whose minimal corner has a non-negative
`x`. -/
def frustum : Frustum where
  isBoxVisible := fun lo _ => decide (0 ≤ lo.x)

end Scenario

/-! ## The ogg decode stream -/

namespace ogg

/-- Error codes of libvorbis (vorbis/codec.h). -/
def OV_EREAD : Int := -128
/-- See `OV_EREAD`. -/
def OV_EFAULT : Int := -129
/-- See `OV_EREAD`. -/
def OV_EINVAL : Int := -131
/-- See `OV_EREAD`. -/
def OV_ENOTVORBIS : Int := -132
/-- See `OV_EREAD`. -/
def OV_EBADHEADER : Int := -133
/-- See `OV_EREAD`. -/
def OV_EVERSION : Int := -134

/-- The function `vorbis_error_message`. -/
def vorbis_error_message (code : Int) : String :=
  if code = 0 then "no error"
  else if code = OV_EREAD then "a read from media returned an error"
  else if code = OV_ENOTVORBIS then "bitstream does not contain any Vorbis data"
  else if code = OV_EVERSION then "vorbis version mismatch"
  else if code = OV_EBADHEADER then "invalid Vorbis bitstream header"
  else if code = OV_EFAULT then "internal logic fault"
  else if code = OV_EINVAL then "invalid read operation"
  else "unknown"

/-- Modelled from the spec: the constant `PCMStream::ERROR` (declared in
audio/audio.h, which is not among the sources). The stream interface of the
spec reports a decode error as a negative result of `read`; the result type
is `size_t`, so the constant is `-1` as a 64-bit unsigned value. -/
def PCMStream.ERROR : Nat := 2 ^ 64 - 1

/-- An `OggStream` over a decoder state of type `VF` (the `OggVorbis_File`). -/
structure OggStream (VF : Type) where
  vf : VF
  closed : Bool

/-- What a call of `OggStream::read` leaves behind: the stream, the lines
written to `std::cerr` and the returned size. -/
structure ReadResult (VF : Type) where
  stream : OggStream VF
  cerr : List String
  ret : Nat

/-- The method `OggStream::read`. The decoder call
`ov_read(&vf, buffer, bufferSize, 0, 2, true, &bitstream)` is the parameter
`ov_read`, from the decoder state and the buffer size to the result and the
decoder state it leaves; the contents of the buffer are not modelled. -/
def OggStream.read {VF : Type} (ov_read : VF → Nat → Int × VF) (st : OggStream VF)
    (bufferSize : Nat) : ReadResult VF :=
  if st.closed then { stream := st, cerr := [], ret := 0 }
  else
    let bytes := (ov_read st.vf bufferSize).1
    let st := { st with vf := (ov_read st.vf bufferSize).2 }
    if bytes < 0 then
      { stream := st,
        cerr := ["ogg::load_pcm: " ++ vorbis_error_message bytes ++ " " ++ toString bytes],
        ret := PCMStream.ERROR }
    else { stream := st, cerr := [], ret := bytes.toNat }

/-- The method `OggStream::isOpen`. -/
def OggStream.isOpen {VF : Type} (st : OggStream VF) : Bool := !st.closed

end ogg

end VoxelEngine

/-! # Theorems -/

namespace VoxelEngine

/-! ## The identity map -/

namespace IdMap

theorem mem_of_find {m : IdMap} {id : Nat} {h : EnttEntity} (hf : find m id = some h) :
    (id, h) ∈ m := by
  induction m with
  | nil => simp [find] at hf
  | cons p rest ih =>
    obtain ⟨k, v⟩ := p
    simp only [find] at hf
    split at hf
    · next hk =>
      cases hf
      subst hk
      exact List.mem_cons_self _ _
    · exact List.mem_cons_of_mem _ (ih hf)

theorem find_of_mem {m : IdMap} {id : Nat} {h : EnttEntity}
    (hn : (m.map Prod.fst).Nodup) (hm : (id, h) ∈ m) : find m id = some h := by
  induction m with
  | nil => simp at hm
  | cons p rest ih =>
    obtain ⟨k, v⟩ := p
    simp only [List.map_cons, List.nodup_cons] at hn
    simp only [find]
    rcases List.mem_cons.mp hm with heq | hrest
    · cases heq
      simp
    · have hne : k ≠ id := by
        intro hk
        subst hk
        exact hn.1 (List.mem_map.mpr ⟨(k, h), hrest, rfl⟩)
      simp [hne, ih hn.2 hrest]

theorem find_assign_self (m : IdMap) (id : Nat) (h : EnttEntity) :
    find (assign m id h) id = some h := by
  induction m with
  | nil => simp [assign, find]
  | cons p rest ih =>
    obtain ⟨k, v⟩ := p
    by_cases hk : k = id
    · simp [assign, find, hk]
    · simp [assign, find, hk, ih]

theorem find_assign_of_ne (m : IdMap) {id k : Nat} (h : EnttEntity) (hne : k ≠ id) :
    find (assign m id h) k = find m k := by
  induction m with
  | nil => simp [assign, find, Ne.symm hne]
  | cons p rest ih =>
    obtain ⟨k', v⟩ := p
    by_cases hk : k' = id
    · subst hk
      simp [assign, find, Ne.symm hne]
    · by_cases hk' : k' = k
      · subst hk'
        simp [assign, find, hk]
      · simp [assign, find, hk, hk', ih]

theorem mem_assign {m : IdMap} {id : Nat} {h : EnttEntity} {p : Nat × EnttEntity}
    (hp : p ∈ assign m id h) : p = (id, h) ∨ p ∈ m := by
  induction m with
  | nil => simpa [assign] using hp
  | cons q rest ih =>
    obtain ⟨k, v⟩ := q
    by_cases hk : k = id
    · simp only [assign, hk, if_true, List.mem_cons] at hp
      rcases hp with hp | hp
      · exact Or.inl hp
      · exact Or.inr (List.mem_cons_of_mem _ hp)
    · simp only [assign, hk, if_false, List.mem_cons] at hp
      rcases hp with hp | hp
      · exact Or.inr (hp ▸ List.mem_cons_self _ _)
      · rcases ih hp with h1 | h1
        · exact Or.inl h1
        · exact Or.inr (List.mem_cons_of_mem _ h1)

theorem nodup_assign {m : IdMap} (id : Nat) (h : EnttEntity)
    (hn : (m.map Prod.fst).Nodup) : ((assign m id h).map Prod.fst).Nodup := by
  induction m with
  | nil => simp [assign]
  | cons q rest ih =>
    obtain ⟨k, v⟩ := q
    simp only [List.map_cons, List.nodup_cons] at hn
    by_cases hk : k = id
    · simpa [assign, hk] using hn
    · simp only [assign, hk, if_false, List.map_cons, List.nodup_cons]
      refine ⟨?_, ih hn.2⟩
      intro hmem
      obtain ⟨p, hp, hpk⟩ := List.mem_map.mp hmem
      rcases mem_assign hp with h1 | h1
      · subst h1
        exact hk hpk.symm
      · exact hn.1 (List.mem_map.mpr ⟨p, h1, hpk⟩)

end IdMap

namespace Entities

theorem cleanLoop_eq_filter (r : Registry) (m : IdMap) :
    cleanLoop r m = m.filter fun it => r.valid it.2 := by
  induction m with
  | nil => rfl
  | cons it rest ih =>
    by_cases hv : r.valid it.2 = true
    · simp [cleanLoop, hv, ih]
    · simp [cleanLoop, hv, ih]

theorem mem_cleanLoop {r : Registry} {m : IdMap} {p : Nat × EnttEntity} :
    p ∈ cleanLoop r m ↔ p ∈ m ∧ r.valid p.2 = true := by
  rw [cleanLoop_eq_filter, List.mem_filter]

theorem find_cleanLoop_of_valid {r : Registry} {m : IdMap} {id : Nat} {h : EnttEntity}
    (hf : IdMap.find m id = some h) (hv : r.valid h = true) :
    IdMap.find (cleanLoop r m) id = some h := by
  induction m with
  | nil => simp [IdMap.find] at hf
  | cons p rest ih =>
    obtain ⟨k, v⟩ := p
    simp only [IdMap.find] at hf
    by_cases hk : k = id
    · simp only [hk, if_true, Option.some.injEq] at hf
      subst hf
      simp [cleanLoop, hv, IdMap.find, hk]
    · simp only [hk, if_false] at hf
      by_cases hv' : r.valid v = true
      · simp [cleanLoop, hv', IdMap.find, hk, ih hf]
      · simp [cleanLoop, hv', ih hf]

theorem nodup_cleanLoop {r : Registry} {m : IdMap} (hn : (m.map Prod.fst).Nodup) :
    ((cleanLoop r m).map Prod.fst).Nodup := by
  rw [cleanLoop_eq_filter]
  exact hn.sublist ((List.filter_sublist m).map Prod.fst)

theorem find_cleanLoop {r : Registry} {m : IdMap} (hn : (m.map Prod.fst).Nodup) (id : Nat) :
    IdMap.find (cleanLoop r m) id = (IdMap.find m id).filter r.valid := by
  cases hf : IdMap.find m id with
  | some h =>
    by_cases hv : r.valid h = true
    · simp [Option.filter, hv, find_cleanLoop_of_valid hf hv]
    · simp only [Option.filter, hv]
      cases hc : IdMap.find (cleanLoop r m) id with
      | none => rfl
      | some h' =>
        have hm := mem_cleanLoop.mp (IdMap.mem_of_find hc)
        have := IdMap.find_of_mem hn hm.1
        rw [hf] at this
        cases this
        exact absurd hm.2 hv
  | none =>
    cases hc : IdMap.find (cleanLoop r m) id with
    | none => rfl
    | some h' =>
      have hm := mem_cleanLoop.mp (IdMap.mem_of_find hc)
      have := IdMap.find_of_mem hn hm.1
      rw [hf] at this
      cases this

end Entities

/-! ## The component storage -/

namespace Registry

theorem valid_iff {r : Registry} {e : EnttEntity} :
    r.valid e = true ↔
      ∃ sl, r.slots[e.index]? = some sl ∧ sl.alive = true ∧ sl.version = e.version := by
  unfold valid
  cases r.slots[e.index]? with
  | none => simp
  | some sl => simp

theorem patch_getElem? (r : Registry) (e : EnttEntity) (f : Slot → Slot) (i : Nat) :
    (r.patch e f).slots[i]?
      = if r.valid e = true ∧ e.index = i then (r.slots[i]?).map f else r.slots[i]? := by
  unfold patch
  by_cases hv : r.valid e = true
  · by_cases hi : e.index = i
    · simp [hv, hi, List.getElem?_modify]
    · simp [hv, hi, List.getElem?_modify]
  · simp [hv]

theorem patch_free (r : Registry) (e : EnttEntity) (f : Slot → Slot) :
    (r.patch e f).free = r.free := by
  unfold patch
  split <;> rfl

theorem patch_length (r : Registry) (e : EnttEntity) (f : Slot → Slot) :
    (r.patch e f).slots.length = r.slots.length := by
  unfold patch
  split <;> simp

theorem patch_valid (r : Registry) (e : EnttEntity) (f : Slot → Slot) (e' : EnttEntity)
    (hf : ∀ sl, (f sl).alive = sl.alive ∧ (f sl).version = sl.version) :
    (r.patch e f).valid e' = r.valid e' := by
  unfold valid
  rw [patch_getElem?]
  by_cases hc : r.valid e = true ∧ e.index = e'.index
  · rw [if_pos hc]
    cases r.slots[e'.index]? with
    | none => rfl
    | some sl => simp [(hf sl).1, (hf sl).2]
  · rw [if_neg hc]

theorem emplaceEntityId_valid (r : Registry) (e e' : EnttEntity) (c : EntityId) :
    (r.emplaceEntityId e c).valid e' = r.valid e' :=
  patch_valid _ _ _ _ fun _ => ⟨rfl, rfl⟩

theorem emplaceTransform_valid (r : Registry) (e e' : EnttEntity) (c : Transform) :
    (r.emplaceTransform e c).valid e' = r.valid e' :=
  patch_valid _ _ _ _ fun _ => ⟨rfl, rfl⟩

theorem emplaceRigidbody_valid (r : Registry) (e e' : EnttEntity) (c : Rigidbody) :
    (r.emplaceRigidbody e c).valid e' = r.valid e' :=
  patch_valid _ _ _ _ fun _ => ⟨rfl, rfl⟩

theorem emplaceScripting_valid (r : Registry) (e e' : EnttEntity) (c : Scripting) :
    (r.emplaceScripting e c).valid e' = r.valid e' :=
  patch_valid _ _ _ _ fun _ => ⟨rfl, rfl⟩

theorem destroy_getElem? (r : Registry) (e : EnttEntity) (i : Nat) :
    (r.destroy e).slots[i]?
      = if r.valid e = true ∧ e.index = i then (r.slots[i]?).map (Slot.release r.maxVersion)
        else r.slots[i]? := by
  unfold destroy
  by_cases hv : r.valid e = true
  · by_cases hi : e.index = i
    · simp [hv, hi, List.getElem?_modify]
    · simp [hv, hi, List.getElem?_modify]
  · simp [hv]

theorem destroy_free (r : Registry) (e : EnttEntity) :
    (r.destroy e).free = if r.valid e = true then e.index :: r.free else r.free := by
  unfold destroy
  split <;> rfl

theorem destroy_length (r : Registry) (e : EnttEntity) :
    (r.destroy e).slots.length = r.slots.length := by
  unfold destroy
  split <;> simp

theorem destroy_maxVersion (r : Registry) (e : EnttEntity) :
    (r.destroy e).maxVersion = r.maxVersion := by
  unfold destroy
  split <;> rfl

theorem patch_maxVersion (r : Registry) (e : EnttEntity) (f : Slot → Slot) :
    (r.patch e f).maxVersion = r.maxVersion := by
  unfold patch
  split <;> rfl

theorem create_maxVersion (r : Registry) : r.create.2.maxVersion = r.maxVersion := by
  unfold create
  split
  · rfl
  · split <;> rfl

theorem create_slot {r : Registry} (hfree : ∀ j ∈ r.free, j < r.slots.length) :
    r.create.2.slots[r.create.1.index]? = some (Slot.fresh r.create.1.version) := by
  obtain ⟨slots, free⟩ := r
  cases free with
  | nil => simp [create]
  | cons i rest =>
    have hi : i < slots.length := hfree i (List.mem_cons_self _ _)
    simp [create, List.getElem?_eq_getElem hi, List.getElem?_set, hi]

theorem create_other (r : Registry) {i : Nat} (hi : i ≠ r.create.1.index) :
    r.create.2.slots[i]? = r.slots[i]? := by
  obtain ⟨slots, free⟩ := r
  cases free with
  | nil =>
    simp only [create] at hi ⊢
    rcases Nat.lt_or_ge i slots.length with hlt | hge
    · simp [List.getElem?_append_left hlt]
    · have hgt : slots.length < i := lt_of_le_of_ne hge (Ne.symm hi)
      rw [List.getElem?_eq_none (by simp; omega), List.getElem?_eq_none (by omega)]
  | cons j rest =>
    simp only [create] at hi ⊢
    cases hj : slots[j]? with
    | none => simp
    | some sl =>
      simp only [hj] at hi ⊢
      simp [List.getElem?_set_ne (Ne.symm hi)]

theorem create_version (r : Registry) {sl : Slot}
    (hsl : r.slots[r.create.1.index]? = some sl) : sl.version = r.create.1.version := by
  obtain ⟨slots, free⟩ := r
  cases free with
  | nil =>
    simp only [create] at hsl
    simp at hsl
  | cons j rest =>
    simp only [create] at hsl ⊢
    cases hj : slots[j]? with
    | none =>
      simp only [hj] at hsl
      cases hsl
    | some sl' =>
      simp only [hj] at hsl ⊢
      cases hsl
      rfl

theorem create_of_free {r : Registry} {i : Nat} {rest : List Nat} {sl : Slot}
    (hfree : r.free = i :: rest) (hsl : r.slots[i]? = some sl) :
    r.create.1 = ⟨i, sl.version⟩ ∧ r.create.2.free = rest := by
  obtain ⟨slots, free, maxVersion⟩ := r
  simp only at hfree hsl
  subst hfree
  simp [create, hsl]

theorem create_free {r : Registry} (hfree : ∀ j ∈ r.free, j < r.slots.length) :
    ∀ j ∈ r.create.2.free, j < r.create.2.slots.length := by
  obtain ⟨slots, free⟩ := r
  cases free with
  | nil => simp [create]
  | cons i rest =>
    intro j hj
    have hlt : ∀ k ∈ rest, k < slots.length := fun k hk => hfree k (List.mem_cons_of_mem _ hk)
    simp only [create] at hj ⊢
    cases hi : slots[i]? with
    | none =>
      simp only [hi] at hj ⊢
      exact hlt j hj
    | some sl =>
      simp only [hi] at hj ⊢
      simpa using hlt j hj

end Registry


namespace Entities

/-! ## Lookup -/

theorem get_eq_some {s : Entities} {id : Nat} {e : Entity} :
    s.get id = some e ↔
      e.id = id ∧ IdMap.find s.entities id = some e.entity ∧ s.registry.valid e.entity = true := by
  unfold get
  obtain ⟨eid, eh⟩ := e
  cases hf : IdMap.find s.entities id with
  | none => simp
  | some h =>
    by_cases hv : s.registry.valid h = true
    · simp only [hv, if_true, Option.some.injEq, Entity.mk.injEq]
      constructor
      · rintro ⟨rfl, rfl⟩
        exact ⟨rfl, rfl, hv⟩
      · rintro ⟨rfl, h2, _⟩
        exact ⟨rfl, h2⟩
    · simp only [hv, Option.some.injEq]
      constructor
      · intro h0
        simp at h0
      · rintro ⟨_, h2, h3⟩
        subst h2
        exact absurd h3 hv

theorem get_eq_none {s : Entities} {id : Nat} :
    s.get id = none ↔
      ∀ h, IdMap.find s.entities id = some h → s.registry.valid h = false := by
  unfold get
  cases hf : IdMap.find s.entities id with
  | none => simp
  | some h =>
    by_cases hv : s.registry.valid h = true
    · simp [hv]
    · simp [hv]

/-! ## spawn -/

theorem spawn_valid_create {s : Entities}
    (hfree : ∀ j ∈ s.registry.free, j < s.registry.slots.length) :
    s.registry.create.2.valid s.registry.create.1 = true :=
  Registry.valid_iff.mpr ⟨_, Registry.create_slot hfree, rfl, rfl⟩

theorem spawn_getElem? (c : Collab) {s : Entities} (edef : EntityDef) (pos : Vec3)
    (hfree : ∀ j ∈ s.registry.free, j < s.registry.slots.length) (i : Nat) :
    (s.spawn c edef pos).2.1.registry.slots[i]?
      = if i = s.registry.create.1.index then some (spawnSlot c s edef pos)
        else s.registry.slots[i]? := by
  have hv := spawn_valid_create hfree
  have hs := Registry.create_slot hfree
  simp only [spawn]
  by_cases hi : i = s.registry.create.1.index
  · subst hi
    rw [if_pos rfl]
    simp only [Registry.emplaceScripting, Registry.emplaceRigidbody, Registry.emplaceTransform,
      Registry.emplaceEntityId]
    rw [Registry.patch_getElem?, Registry.patch_getElem?, Registry.patch_getElem?,
      Registry.patch_getElem?, Registry.patch_getElem?]
    simp only [← Registry.emplaceScripting.eq_def, ← Registry.emplaceRigidbody.eq_def,
      ← Registry.emplaceTransform.eq_def, ← Registry.emplaceEntityId.eq_def]
    simp [Registry.emplaceScripting_valid, Registry.emplaceRigidbody_valid,
      Registry.emplaceTransform_valid, Registry.emplaceEntityId_valid, hv, hs, spawnSlot,
      Slot.fresh]
  · rw [if_neg hi]
    simp only [Registry.emplaceScripting, Registry.emplaceRigidbody, Registry.emplaceTransform,
      Registry.emplaceEntityId]
    rw [Registry.patch_getElem?, Registry.patch_getElem?, Registry.patch_getElem?,
      Registry.patch_getElem?, Registry.patch_getElem?]
    simp only [Ne.symm hi, and_false, if_false]
    exact Registry.create_other _ hi

theorem spawn_free (c : Collab) (s : Entities) (edef : EntityDef) (pos : Vec3) :
    (s.spawn c edef pos).2.1.registry.free = s.registry.create.2.free := by
  simp [spawn, Registry.emplaceEntityId, Registry.emplaceTransform,
    Registry.emplaceRigidbody, Registry.emplaceScripting, Registry.patch_free]

theorem spawn_length (c : Collab) (s : Entities) (edef : EntityDef) (pos : Vec3) :
    (s.spawn c edef pos).2.1.registry.slots.length = s.registry.create.2.slots.length := by
  simp [spawn, Registry.emplaceEntityId, Registry.emplaceTransform,
    Registry.emplaceRigidbody, Registry.emplaceScripting, Registry.patch_length]

theorem spawn_get {c : Collab} {s : Entities} (edef : EntityDef) (pos : Vec3)
    (hfree : ∀ j ∈ s.registry.free, j < s.registry.slots.length) :
    (s.spawn c edef pos).2.1.get (s.spawn c edef pos).1
      = some ⟨s.nextID, s.registry.create.1⟩ := by
  rw [get_eq_some]
  refine ⟨rfl, IdMap.find_assign_self _ _ _, ?_⟩
  rw [Registry.valid_iff]
  refine ⟨spawnSlot c s edef pos, ?_, rfl, rfl⟩
  rw [spawn_getElem? c edef pos hfree, if_pos rfl]

theorem Inv.inv_init (base maxVersion : Nat) : (Entities.init base maxVersion).Inv where
  keys_nodup := by simp [Entities.init]
  free_lt := by simp [Entities.init, Registry.empty]
  live_mapped := by simp [Entities.init, Registry.empty]

theorem Inv.inv_spawn {s : Entities} (hs : s.Inv) (hf : s.Fresh) (c : Collab)
    (edef : EntityDef) (pos : Vec3) : (s.spawn c edef pos).2.1.Inv where
  keys_nodup := IdMap.nodup_assign _ _ hs.keys_nodup
  free_lt := by
    rw [spawn_free, spawn_length]
    exact Registry.create_free hs.free_lt
  live_mapped := by
    intro i sl hsl halive
    rw [spawn_getElem? c edef pos hs.free_lt] at hsl
    by_cases hi : i = s.registry.create.1.index
    · rw [if_pos hi] at hsl
      cases hsl
      refine ⟨⟨s.nextID, edef⟩, rfl, ?_⟩
      subst hi
      exact IdMap.find_assign_self _ _ _
    · rw [if_neg hi] at hsl
      obtain ⟨eid, he, hf'⟩ := hs.live_mapped i sl hsl halive
      refine ⟨eid, he, ?_⟩
      have hlt : eid.uid < s.nextID := hf _ (IdMap.mem_of_find hf')
      show IdMap.find (IdMap.assign s.entities s.nextID _) eid.uid = _
      rw [IdMap.find_assign_of_ne _ _ (Nat.ne_of_lt hlt)]
      exact hf'

theorem spawn_nextID {c : Collab} {s : Entities} (edef : EntityDef) (pos : Vec3)
    (hroom : s.nextID + 1 < entityidSize) :
    (s.spawn c edef pos).2.1.nextID = s.nextID + 1 :=
  Nat.mod_eq_of_lt hroom

theorem Fresh.fresh_spawn {s : Entities} (hf : s.Fresh) (hroom : s.nextID + 1 < entityidSize)
    (c : Collab) (edef : EntityDef) (pos : Vec3) : (s.spawn c edef pos).2.1.Fresh := by
  intro p hp
  rw [spawn_nextID edef pos hroom]
  rcases IdMap.mem_assign hp with h1 | h1
  · subst h1
    exact Nat.lt_succ_self _
  · exact Nat.lt_succ_of_lt (hf p h1)

/-! ## despawn -/

theorem despawn_of_get_none {s : Entities} {id : Nat} (hg : s.get id = none) :
    s.despawn id = some (s, []) := by
  simp [despawn, hg]

theorem getDef_of_get {s : Entities} (hs : s.Inv) {id : Nat} {e : Entity}
    (hg : s.get id = some e) : ∃ edef, e.getDef s = some edef := by
  obtain ⟨_, _, hv⟩ := get_eq_some.mp hg
  obtain ⟨sl, hsl, halive, _⟩ := Registry.valid_iff.mp hv
  obtain ⟨eid, he, _⟩ := hs.live_mapped _ sl hsl halive
  exact ⟨eid.edef, by simp [Entity.getDef, Registry.getEntityId, Registry.slotOf, hv, hsl, he]⟩

theorem despawn_of_get_some {s : Entities} (hs : s.Inv) {id : Nat} {e : Entity}
    (hg : s.get id = some e) :
    ∃ edef, e.getDef s = some edef ∧
      s.despawn id = some ({ s with registry := s.registry.destroy e.entity },
        [ScriptCall.on_entity_despawn edef e]) := by
  obtain ⟨edef, hd⟩ := getDef_of_get hs hg
  exact ⟨edef, hd, by simp [despawn, hg, hd, Entity.getHandler]⟩

theorem despawn_total {s : Entities} (hs : s.Inv) (id : Nat) : ∃ r, s.despawn id = some r := by
  cases hg : s.get id with
  | none => exact ⟨_, despawn_of_get_none hg⟩
  | some e =>
    obtain ⟨edef, _, hd⟩ := despawn_of_get_some hs hg
    exact ⟨_, hd⟩

/-- What `despawn` leaves: the state itself, or the state with one valid handle
destroyed. -/
theorem despawn_cases {s : Entities} {id : Nat} {r : Entities × List ScriptCall}
    (hd : s.despawn id = some r) :
    (s.get id = none ∧ r = (s, [])) ∨
      ∃ e, s.get id = some e ∧ r.1 = { s with registry := s.registry.destroy e.entity } := by
  cases hg : s.get id with
  | none =>
    rw [despawn_of_get_none hg] at hd
    cases hd
    exact Or.inl ⟨rfl, rfl⟩
  | some e =>
    refine Or.inr ⟨e, rfl, ?_⟩
    simp only [despawn, hg] at hd
    cases hdef : e.getDef s with
    | none => simp [hdef] at hd
    | some edef =>
      simp only [hdef, Option.some.injEq] at hd
      subst hd
      rfl

theorem Inv.inv_destroy {s : Entities} (hs : s.Inv) {e : EnttEntity}
    (hv : s.registry.valid e = true) :
    ({ s with registry := s.registry.destroy e } : Entities).Inv where
  keys_nodup := hs.keys_nodup
  free_lt := by
    intro j hj
    obtain ⟨sl, hsl, _, _⟩ := Registry.valid_iff.mp hv
    have hlt : e.index < s.registry.slots.length := by
      rcases Nat.lt_or_ge e.index s.registry.slots.length with h | h
      · exact h
      · rw [List.getElem?_eq_none h] at hsl
        cases hsl
    simp only [Registry.destroy_free, hv, if_true, List.mem_cons, Registry.destroy_length] at hj ⊢
    rcases hj with h1 | h1
    · exact h1 ▸ hlt
    · exact hs.free_lt j h1
  live_mapped := by
    intro i sl hsl halive
    simp only [Registry.destroy_getElem?, hv, true_and] at hsl
    by_cases hi : e.index = i
    · rw [if_pos hi] at hsl
      cases hsi : s.registry.slots[i]? with
      | none => simp [hsi] at hsl
      | some sl0 =>
        simp only [hsi, Option.map_some', Option.some.injEq] at hsl
        subst hsl
        simp [Slot.release] at halive
    · rw [if_neg hi] at hsl
      exact hs.live_mapped i sl hsl halive

theorem Inv.inv_despawn {s : Entities} (hs : s.Inv) {id : Nat} {r : Entities × List ScriptCall}
    (hd : s.despawn id = some r) : r.1.Inv := by
  rcases despawn_cases hd with ⟨_, rfl⟩ | ⟨e, hg, hr⟩
  · exact hs
  · rw [hr]
    exact hs.inv_destroy (get_eq_some.mp hg).2.2

/-! ## clean -/

theorem Inv.inv_clean {s : Entities} (hs : s.Inv) : s.clean.Inv where
  keys_nodup := nodup_cleanLoop hs.keys_nodup
  free_lt := hs.free_lt
  live_mapped := by
    intro i sl hsl halive
    obtain ⟨eid, he, hf⟩ := hs.live_mapped i sl hsl halive
    refine ⟨eid, he, find_cleanLoop_of_valid hf ?_⟩
    exact Registry.valid_iff.mpr ⟨sl, hsl, halive, rfl⟩

theorem get_clean {s : Entities} (hs : s.Inv) (id : Nat) : s.clean.get id = s.get id := by
  unfold get
  show (match IdMap.find (cleanLoop s.registry s.entities) id with
    | some h => if s.registry.valid h = true then some (⟨id, h⟩ : Entity) else none
    | none => none) = _
  rw [find_cleanLoop hs.keys_nodup]
  cases hf : IdMap.find s.entities id with
  | none => rfl
  | some h =>
    by_cases hv : s.registry.valid h = true
    · simp [Option.filter, hv]
    · simp [Option.filter, hv]

end Entities


namespace Entities

/-! ## updatePhysics -/

/-- The hitbox an enabled rigid body is left with by one iteration of the
physics pass. -/
theorem updatePhysicsEntity_enabled (c : Collab) {s : Entities} (delta : ℚ) {eid : EntityId}
    (transform : Transform) {rigidbody : Rigidbody} {e : Entity}
    (hg : s.get eid.uid = some e) (hen : rigidbody.enabled = true) :
    updatePhysicsEntity c s delta eid transform rigidbody
      = some
          ({ transform with pos := (c.physicsStep rigidbody.hitbox delta 10 false 1 true).position },
            { rigidbody with
              hitbox :=
                { c.physicsStep rigidbody.hitbox delta 10 false 1 true with
                  linearDamping :=
                    if (c.physicsStep rigidbody.hitbox delta 10 false 1 true).grounded = true
                    then 24 else 0 } },
            expectedNotifications c e rigidbody.hitbox
              (c.physicsStep rigidbody.hitbox delta 10 false 1 true)) := by
  unfold updatePhysicsEntity expectedNotifications
  simp only [hen, hg]
  cases h1 : (c.physicsStep rigidbody.hitbox delta 10 false 1 true).grounded <;>
    cases h2 : rigidbody.hitbox.grounded <;> simp

theorem updatePhysicsEntity_disabled (c : Collab) (s : Entities) (delta : ℚ) (eid : EntityId)
    (transform : Transform) {rigidbody : Rigidbody} (hen : rigidbody.enabled = false) :
    updatePhysicsEntity c s delta eid transform rigidbody = some (transform, rigidbody, []) := by
  simp [updatePhysicsEntity, hen]

/-- A slot outside the view is left alone. -/
theorem updatePhysicsSlot_skip (c : Collab) (s : Entities) (delta : ℚ) {sl : Slot}
    (h : sl.alive = false ∨ sl.eid = none ∨ sl.transform = none ∨ sl.rigidbody = none) :
    updatePhysicsSlot c s delta sl = some (sl, []) := by
  unfold updatePhysicsSlot
  rcases h with h | h | h | h
  · simp [h]
  · split
    · simp_all
    · rfl
  · split
    · simp_all
    · rfl
  · split
    · simp_all
    · rfl

theorem updatePhysicsSlot_view (c : Collab) (s : Entities) (delta : ℚ) {sl : Slot}
    {eid : EntityId} {transform : Transform} {rigidbody : Rigidbody}
    (ha : sl.alive = true) (he : sl.eid = some eid) (ht : sl.transform = some transform)
    (hr : sl.rigidbody = some rigidbody) :
    updatePhysicsSlot c s delta sl
      = (updatePhysicsEntity c s delta eid transform rigidbody).map fun r =>
          ({ sl with transform := some r.1, rigidbody := some r.2.1 }, r.2.2) := by
  unfold updatePhysicsSlot
  simp [ha, he, ht, hr]

/-- The physics pass changes neither the version, the liveness nor the
`EntityId` of a slot. -/
theorem updatePhysicsSlot_same {c : Collab} {s : Entities} {delta : ℚ} {sl : Slot}
    {a : Slot × List ScriptCall} (h : updatePhysicsSlot c s delta sl = some a) :
    a.1.version = sl.version ∧ a.1.alive = sl.alive ∧ a.1.eid = sl.eid
      ∧ a.1.scripting = sl.scripting := by
  by_cases hv : sl.alive = false ∨ sl.eid = none ∨ sl.transform = none ∨ sl.rigidbody = none
  · rw [updatePhysicsSlot_skip c s delta hv] at h
    cases h
    exact ⟨rfl, rfl, rfl, rfl⟩
  · simp only [not_or, Bool.not_eq_false, ← ne_eq, Option.ne_none_iff_exists'] at hv
    obtain ⟨ha, ⟨eid, he⟩, ⟨tf, ht⟩, ⟨rb, hr⟩⟩ := hv
    rw [updatePhysicsSlot_view c s delta ha he ht hr] at h
    cases hu : updatePhysicsEntity c s delta eid tf rb with
    | none => simp [hu] at h
    | some r =>
      simp only [hu, Option.map_some', Option.some.injEq] at h
      subst h
      exact ⟨rfl, rfl, rfl, rfl⟩

theorem updatePhysicsLoop_cons {c : Collab} {s : Entities} {delta : ℚ} {sl : Slot}
    {rest : List Slot} {r : List Slot × List ScriptCall}
    (h : updatePhysicsLoop c s delta (sl :: rest) = some r) :
    ∃ a b, updatePhysicsSlot c s delta sl = some a ∧ updatePhysicsLoop c s delta rest = some b
      ∧ r = (a.1 :: b.1, a.2 ++ b.2) := by
  simp only [updatePhysicsLoop] at h
  cases ha : updatePhysicsSlot c s delta sl with
  | none => simp [ha] at h
  | some a =>
    cases hb : updatePhysicsLoop c s delta rest with
    | none => simp [ha, hb] at h
    | some b =>
      simp only [ha, hb, Option.some.injEq] at h
      exact ⟨a, b, rfl, rfl, h.symm⟩

theorem updatePhysicsLoop_length {c : Collab} {s : Entities} {delta : ℚ} :
    ∀ {slots : List Slot} {r : List Slot × List ScriptCall},
      updatePhysicsLoop c s delta slots = some r → r.1.length = slots.length
  | [], r, h => by
    simp only [updatePhysicsLoop, Option.some.injEq] at h
    subst h
    rfl
  | sl :: rest, r, h => by
    obtain ⟨a, b, _, hb, rfl⟩ := updatePhysicsLoop_cons h
    simp [updatePhysicsLoop_length hb]

/-- Slot by slot, the pass leaves what the loop body makes of the slot. -/
theorem updatePhysicsLoop_getElem? {c : Collab} {s : Entities} {delta : ℚ} :
    ∀ {slots : List Slot} {r : List Slot × List ScriptCall},
      updatePhysicsLoop c s delta slots = some r →
      ∀ (i : Nat) (sl : Slot), slots[i]? = some sl →
        ∃ a, updatePhysicsSlot c s delta sl = some a ∧ r.1[i]? = some a.1
  | [], r, _, i, sl, hsl => by simp at hsl
  | sl0 :: rest, r, h, i, sl, hsl => by
    obtain ⟨a, b, ha, hb, rfl⟩ := updatePhysicsLoop_cons h
    cases i with
    | zero =>
      simp only [List.getElem?_cons_zero, Option.some.injEq] at hsl
      subst hsl
      exact ⟨a, ha, by simp⟩
    | succ j =>
      simp only [List.getElem?_cons_succ] at hsl
      obtain ⟨a', ha', hr⟩ := updatePhysicsLoop_getElem? hb j sl hsl
      exact ⟨a', ha', by simpa using hr⟩

theorem updatePhysicsLoop_total {c : Collab} {s : Entities} {delta : ℚ} :
    ∀ {slots : List Slot}, (∀ sl ∈ slots, ∃ a, updatePhysicsSlot c s delta sl = some a) →
      ∃ r, updatePhysicsLoop c s delta slots = some r
  | [], _ => ⟨_, rfl⟩
  | sl :: rest, h => by
    obtain ⟨a, ha⟩ := h sl (List.mem_cons_self _ _)
    obtain ⟨b, hb⟩ := updatePhysicsLoop_total fun x hx => h x (List.mem_cons_of_mem _ hx)
    exact ⟨(a.1 :: b.1, a.2 ++ b.2), by simp [updatePhysicsLoop, ha, hb]⟩

/-- Calls that no slot issues are not issued by the pass. -/
theorem updatePhysicsLoop_filter_nil {c : Collab} {s : Entities} {delta : ℚ}
    (p : ScriptCall → Bool) :
    ∀ {slots : List Slot} {r : List Slot × List ScriptCall},
      updatePhysicsLoop c s delta slots = some r →
      (∀ (j : Nat) (sl : Slot) (a : Slot × List ScriptCall), slots[j]? = some sl →
        updatePhysicsSlot c s delta sl = some a →
        a.2.filter p = []) →
      r.2.filter p = []
  | [], r, h, _ => by
    simp only [updatePhysicsLoop, Option.some.injEq] at h
    subst h
    rfl
  | sl0 :: rest, r, h, hall => by
    obtain ⟨a, b, ha, hb, rfl⟩ := updatePhysicsLoop_cons h
    have h0 := hall 0 sl0 a (by simp) ha
    have h1 := updatePhysicsLoop_filter_nil p hb fun j sl a' hj ha' =>
      hall (j + 1) sl a' (by simpa using hj) ha'
    simp [List.filter_append, h0, h1]

/-- The calls of the pass that satisfy `p`, when only the slot at index `i`
issues calls that satisfy `p`. -/
theorem updatePhysicsLoop_filter {c : Collab} {s : Entities} {delta : ℚ}
    (p : ScriptCall → Bool) :
    ∀ {slots : List Slot} {r : List Slot × List ScriptCall},
      updatePhysicsLoop c s delta slots = some r →
      ∀ (i : Nat) (sl : Slot) (a : Slot × List ScriptCall), slots[i]? = some sl →
      updatePhysicsSlot c s delta sl = some a →
      (∀ (j : Nat) (slj : Slot) (aj : Slot × List ScriptCall), j ≠ i → slots[j]? = some slj →
        updatePhysicsSlot c s delta slj = some aj →
        aj.2.filter p = []) →
      r.2.filter p = a.2.filter p
  | [], r, _, i, sl, _, hsl, _, _ => by simp at hsl
  | sl0 :: rest, r, h, i, sl, a, hsl, hsa, hall => by
    obtain ⟨a0, b, ha0, hb, rfl⟩ := updatePhysicsLoop_cons h
    cases i with
    | zero =>
      simp only [List.getElem?_cons_zero, Option.some.injEq] at hsl
      subst hsl
      rw [ha0] at hsa
      cases hsa
      have h1 := updatePhysicsLoop_filter_nil p hb fun j slj aj hj haj =>
        hall (j + 1) slj aj (Nat.succ_ne_zero j) (by simpa using hj) haj
      simp [List.filter_append, h1]
    | succ k =>
      simp only [List.getElem?_cons_succ] at hsl
      have h0 := hall 0 sl0 a0 (Nat.succ_ne_zero k).symm (by simp) ha0
      have h1 := updatePhysicsLoop_filter p hb k sl a hsl hsa fun j slj aj hj hslj haj =>
        hall (j + 1) slj aj (by omega) (by simpa using hslj) haj
      simp [List.filter_append, h0, h1]

/-- The entity view the lookup yields for the id held by a live slot. -/
theorem get_of_live {s : Entities} (hs : s.Inv) {i : Nat} {sl : Slot} {eid : EntityId}
    (hsl : s.registry.slots[i]? = some sl) (ha : sl.alive = true) (he : sl.eid = some eid) :
    s.get eid.uid = some ⟨eid.uid, ⟨i, sl.version⟩⟩ := by
  obtain ⟨eid', he', hf⟩ := hs.live_mapped i sl hsl ha
  rw [he] at he'
  cases he'
  exact get_eq_some.mpr ⟨rfl, hf, Registry.valid_iff.mpr ⟨sl, hsl, ha, rfl⟩⟩

/-- What one iteration of the physics pass makes of a slot of the view whose
rigid body is enabled. -/
theorem updatePhysicsSlot_enabled (c : Collab) {s : Entities} (hs : s.Inv) (delta : ℚ)
    {i : Nat} {sl : Slot} {eid : EntityId} {transform : Transform} {rigidbody : Rigidbody}
    (hsl : s.registry.slots[i]? = some sl) (ha : sl.alive = true) (he : sl.eid = some eid)
    (ht : sl.transform = some transform) (hb : sl.rigidbody = some rigidbody)
    (hen : rigidbody.enabled = true) :
    updatePhysicsSlot c s delta sl
      = some
          ({ sl with
              transform := some
                { transform with
                  pos := (c.physicsStep rigidbody.hitbox delta 10 false 1 true).position }
              rigidbody := some
                { rigidbody with
                  hitbox :=
                    { c.physicsStep rigidbody.hitbox delta 10 false 1 true with
                      linearDamping :=
                        if (c.physicsStep rigidbody.hitbox delta 10 false 1 true).grounded = true
                        then 24 else 0 } } },
            expectedNotifications c ⟨eid.uid, ⟨i, sl.version⟩⟩ rigidbody.hitbox
              (c.physicsStep rigidbody.hitbox delta 10 false 1 true)) := by
  rw [updatePhysicsSlot_view c s delta ha he ht hb,
    updatePhysicsEntity_enabled c delta transform (get_of_live hs hsl ha he) hen]
  rfl

/-- What one iteration of the physics pass makes of the slot at index `i`. -/
theorem updatePhysicsSlot_spec (c : Collab) {s : Entities} (hs : s.Inv) (delta : ℚ) {i : Nat}
    {sl : Slot} (hsl : s.registry.slots[i]? = some sl) :
    updatePhysicsSlot c s delta sl = some (sl, []) ∨
      ∃ eid transform rigidbody, sl.alive = true ∧ sl.eid = some eid
        ∧ sl.transform = some transform ∧ sl.rigidbody = some rigidbody
        ∧ rigidbody.enabled = true
        ∧ updatePhysicsSlot c s delta sl
          = some
              ({ sl with
                  transform := some
                    { transform with
                      pos := (c.physicsStep rigidbody.hitbox delta 10 false 1 true).position }
                  rigidbody := some
                    { rigidbody with
                      hitbox :=
                        { c.physicsStep rigidbody.hitbox delta 10 false 1 true with
                          linearDamping :=
                            if (c.physicsStep rigidbody.hitbox delta 10 false 1 true).grounded
                                = true
                            then 24 else 0 } } },
                expectedNotifications c ⟨eid.uid, ⟨i, sl.version⟩⟩ rigidbody.hitbox
                  (c.physicsStep rigidbody.hitbox delta 10 false 1 true)) := by
  by_cases hv : sl.alive = false ∨ sl.eid = none ∨ sl.transform = none ∨ sl.rigidbody = none
  · exact Or.inl (updatePhysicsSlot_skip c s delta hv)
  · simp only [not_or, Bool.not_eq_false, ← ne_eq, Option.ne_none_iff_exists'] at hv
    obtain ⟨ha, ⟨eid, he⟩, ⟨tf, ht⟩, ⟨rb, hr⟩⟩ := hv
    cases hen : rb.enabled with
    | false =>
      left
      rw [updatePhysicsSlot_view c s delta ha he ht hr,
        updatePhysicsEntity_disabled c s delta eid tf hen]
      simp only [Option.map_some', Option.some.injEq, Prod.mk.injEq, and_true]
      cases sl
      simp_all
    | true =>
      right
      exact ⟨eid, tf, rb, ha, he, ht, hr, hen,
        updatePhysicsSlot_enabled c hs delta hsl ha he ht hr hen⟩

theorem updatePhysics_total (c : Collab) {s : Entities} (hs : s.Inv) (delta : ℚ) :
    ∃ r, s.updatePhysics c delta = some r := by
  have hall : ∀ sl ∈ s.registry.slots, ∃ a, updatePhysicsSlot c s delta sl = some a := by
    intro sl hmem
    obtain ⟨i, hi⟩ := List.getElem?_of_mem hmem
    rcases updatePhysicsSlot_spec c hs delta hi with h | ⟨_, _, _, _, _, _, _, _, h⟩
    · exact ⟨_, h⟩
    · exact ⟨_, h⟩
  obtain ⟨r, hr⟩ := updatePhysicsLoop_total hall
  exact ⟨({ s with registry := { s.registry with slots := r.1 } }, r.2), by
    simp [updatePhysics, hr]⟩

theorem updatePhysics_eq {c : Collab} {s : Entities} {delta : ℚ}
    {r : Entities × List ScriptCall} (h : s.updatePhysics c delta = some r) :
    ∃ l, updatePhysicsLoop c s delta s.registry.slots = some l
      ∧ r = ({ s with registry := { s.registry with slots := l.1 } }, l.2) := by
  unfold updatePhysics at h
  cases hl : updatePhysicsLoop c s delta s.registry.slots with
  | none => simp [hl] at h
  | some l =>
    simp only [hl, Option.map_some', Option.some.injEq] at h
    exact ⟨l, rfl, h.symm⟩

theorem Inv.inv_updatePhysics {c : Collab} {s : Entities} (hs : s.Inv) {delta : ℚ}
    {r : Entities × List ScriptCall} (h : s.updatePhysics c delta = some r) : r.1.Inv := by
  obtain ⟨l, hl, rfl⟩ := updatePhysics_eq h
  have hlen := updatePhysicsLoop_length hl
  refine ⟨hs.keys_nodup, ?_, ?_⟩
  · intro j hj
    show j < l.1.length
    rw [hlen]
    exact hs.free_lt j hj
  · intro i sl' hsl' halive
    have hsl' : l.1[i]? = some sl' := hsl'
    have hi : i < s.registry.slots.length := by
      rw [← hlen]
      rcases Nat.lt_or_ge i l.1.length with h1 | h1
      · exact h1
      · rw [List.getElem?_eq_none h1] at hsl'
        cases hsl'
    obtain ⟨a, ha, hai⟩ := updatePhysicsLoop_getElem? hl i _ (List.getElem?_eq_getElem hi)
    rw [hsl'] at hai
    cases hai
    obtain ⟨hver, hal, heid, _⟩ := updatePhysicsSlot_same ha
    obtain ⟨eid, he, hf⟩ := hs.live_mapped i _ (List.getElem?_eq_getElem hi) (hal ▸ halive)
    exact ⟨eid, heid.trans he, by rw [hver]; exact hf⟩

end Entities


/-! ## Transform -/

theorem Transform.refresh_eq (t : Transform) :
    t.refresh
      = { t with
          combined :=
            ((Mat4.translation t.pos).mul (Mat4.scaling t.size)).mul (Mat4.ofMat3 t.rot) } := by
  simp [Transform.refresh, glm.translate, glm.scale, Mat4.mul, Mat4.mulVec, Mat4.identity,
    Mat4.translation, Mat4.scaling, Mat4.ofMat3, Vec4.mulScalar, Vec4.add, Vec4.ofVec3]

namespace Entities

/-! ## render -/

theorem renderEntity_eq (frustum : Frustum) (t : Transform) :
    renderEntity frustum "cube" t
      = (if frustum.isBoxVisible (t.pos.sub t.size) (t.pos.add t.size) = true then t.refresh
          else t,
        expectedDraw frustum t) := by
  unfold renderEntity expectedDraw
  by_cases hv : frustum.isBoxVisible (t.pos.sub t.size) (t.pos.add t.size) = true
  · simp [hv, Transform.refresh_eq]
  · simp [hv]

theorem renderSlot_eq (frustum : Frustum) (sl : Slot) :
    renderSlot frustum "cube" sl
      = match sl.viewTransform with
        | some t =>
          ({ sl with
              transform := some
                (if frustum.isBoxVisible (t.pos.sub t.size) (t.pos.add t.size) = true
                  then t.refresh else t) },
            expectedDraw frustum t)
        | none => (sl, []) := by
  unfold renderSlot Slot.viewTransform
  cases ha : sl.alive with
  | false => simp
  | true =>
    cases ht : sl.transform with
    | none => simp
    | some t => simp [renderEntity_eq]

/-- The render pass changes nothing of a slot but its transform. -/
theorem renderSlot_same (frustum : Frustum) (model : String) (sl : Slot) :
    (renderSlot frustum model sl).1.version = sl.version
      ∧ (renderSlot frustum model sl).1.alive = sl.alive
      ∧ (renderSlot frustum model sl).1.eid = sl.eid
      ∧ (renderSlot frustum model sl).1.rigidbody = sl.rigidbody
      ∧ (renderSlot frustum model sl).1.scripting = sl.scripting := by
  unfold renderSlot
  split <;> exact ⟨rfl, rfl, rfl, rfl, rfl⟩

theorem renderLoop_fst (frustum : Frustum) (model : String) (slots : List Slot) :
    (renderLoop frustum model slots).1 = slots.map fun sl => (renderSlot frustum model sl).1 := by
  induction slots with
  | nil => rfl
  | cons sl rest ih => simp [renderLoop, ih]

theorem renderLoop_snd (frustum : Frustum) (model : String) (slots : List Slot) :
    (renderLoop frustum model slots).2
      = slots.flatMap fun sl => (renderSlot frustum model sl).2 := by
  induction slots with
  | nil => rfl
  | cons sl rest ih => simp [renderLoop, ih]

theorem Inv.inv_render {s : Entities} (hs : s.Inv) (frustum : Frustum) :
    (s.render frustum).1.Inv := by
  refine ⟨hs.keys_nodup, ?_, ?_⟩
  · intro j hj
    show j < (renderLoop frustum "cube" s.registry.slots).1.length
    rw [renderLoop_fst, List.length_map]
    exact hs.free_lt j hj
  · intro i sl' hsl' halive
    have hsl' : (renderLoop frustum "cube" s.registry.slots).1[i]? = some sl' := hsl'
    rw [renderLoop_fst, List.getElem?_map] at hsl'
    cases hsi : s.registry.slots[i]? with
    | none => simp [hsi] at hsl'
    | some sl =>
      simp only [hsi, Option.map_some', Option.some.injEq] at hsl'
      subst hsl'
      obtain ⟨hver, hal, heid, _, _⟩ := renderSlot_same frustum "cube" sl
      obtain ⟨eid, he, hf⟩ := hs.live_mapped i sl hsi (hal ▸ halive)
      exact ⟨eid, heid.trans he, by rw [hver]; exact hf⟩

/-! ## The id counter and the frame of the methods -/

theorem spawn_maxVersion (c : Collab) (s : Entities) (edef : EntityDef) (pos : Vec3) :
    (s.spawn c edef pos).2.1.registry.maxVersion = s.registry.maxVersion := by
  simp [spawn, Registry.emplaceEntityId, Registry.emplaceTransform,
    Registry.emplaceRigidbody, Registry.emplaceScripting, Registry.patch_maxVersion,
    Registry.create_maxVersion]

theorem despawn_frame {s : Entities} {id : Nat} {r : Entities × List ScriptCall}
    (hd : s.despawn id = some r) :
    r.1.entities = s.entities ∧ r.1.nextID = s.nextID
      ∧ r.1.registry.maxVersion = s.registry.maxVersion := by
  rcases despawn_cases hd with ⟨_, rfl⟩ | ⟨e, _, he⟩
  · exact ⟨rfl, rfl, rfl⟩
  · rw [he]
    exact ⟨rfl, rfl, Registry.destroy_maxVersion _ _⟩

theorem Fresh.fresh_despawn {s : Entities} (hf : s.Fresh) {id : Nat}
    {r : Entities × List ScriptCall} (hd : s.despawn id = some r) : r.1.Fresh := by
  obtain ⟨he, hn, _⟩ := despawn_frame hd
  intro p hp
  rw [hn]
  exact hf p (he ▸ hp)

theorem Fresh.fresh_clean {s : Entities} (hf : s.Fresh) : s.clean.Fresh :=
  fun p hp => hf p (mem_cleanLoop.mp hp).1

theorem Fresh.fresh_updatePhysics {c : Collab} {s : Entities} (hf : s.Fresh) {delta : ℚ}
    {r : Entities × List ScriptCall} (h : s.updatePhysics c delta = some r) : r.1.Fresh := by
  obtain ⟨l, _, rfl⟩ := updatePhysics_eq h
  exact hf

/-! ## Reachable states satisfy the representation invariant -/

theorem Reachable.inv_fresh {c : Collab} {s : Entities} (h : Reachable c s) :
    s.Inv ∧ s.Fresh ∧ s.nextID < entityidSize := by
  induction h with
  | init base maxVersion hb =>
    exact ⟨Inv.inv_init base maxVersion, by simp [Fresh, Entities.init], hb⟩
  | spawn edef pos _ hroom ih =>
    refine ⟨ih.1.inv_spawn ih.2.1 c edef pos, ih.2.1.fresh_spawn hroom c edef pos, ?_⟩
    rw [spawn_nextID edef pos hroom]
    exact hroom
  | despawn id r _ hd ih =>
    exact ⟨ih.1.inv_despawn hd, ih.2.1.fresh_despawn hd, (despawn_frame hd).2.1 ▸ ih.2.2⟩
  | clean _ ih => exact ⟨ih.1.inv_clean, ih.2.1.fresh_clean, ih.2.2⟩
  | updatePhysics delta r _ hu ih =>
    refine ⟨ih.1.inv_updatePhysics hu, ih.2.1.fresh_updatePhysics hu, ?_⟩
    obtain ⟨l, _, rfl⟩ := updatePhysics_eq hu
    exact ih.2.2
  | render frustum _ ih => exact ⟨ih.1.inv_render frustum, ih.2.1, ih.2.2⟩

theorem Reachable.inv {c : Collab} {s : Entities} (h : Reachable c s) : s.Inv :=
  h.inv_fresh.1

theorem Reachable.fresh {c : Collab} {s : Entities} (h : Reachable c s) : s.Fresh :=
  h.inv_fresh.2.1

end Entities

namespace Entities

/-! ## Retired ids -/

theorem mod_succ_ne {v i m : Nat} (h1 : 1 ≤ i) (h2 : i ≤ m) : (v + i) % (m + 1) ≠ v := by
  intro h
  by_cases hv : v < m + 1
  · have hd := Nat.div_add_mod (v + i) (m + 1)
    rw [h] at hd
    have hq : (m + 1) * ((v + i) / (m + 1)) = i := by omega
    rcases Nat.eq_zero_or_pos ((v + i) / (m + 1)) with h0 | h0
    · rw [h0] at hq
      omega
    · have : m + 1 ≤ (m + 1) * ((v + i) / (m + 1)) := Nat.le_mul_of_pos_right _ h0
      omega
  · have := Nat.mod_lt (v + i) (show 0 < m + 1 by omega)
    omega

theorem Retired.get_none {s : Entities} {id : Nat} {h : EnttEntity} {j : Nat}
    (hr : s.Retired id h j) (hj : j ≤ s.registry.maxVersion) : s.get id = none := by
  rw [get_eq_none]
  intro h' hf
  have hh := hr.entry h' (IdMap.mem_of_find hf)
  subst hh
  obtain ⟨sl, i, hsl, h1, h2, hver⟩ := hr.bumped
  cases hv : s.registry.valid h' with
  | false => rfl
  | true =>
    obtain ⟨sl', hsl', _, hver'⟩ := Registry.valid_iff.mp hv
    rw [hsl] at hsl'
    cases hsl'
    rw [hver] at hver'
    exact absurd hver' (mod_succ_ne h1 (Nat.le_trans h2 hj))

theorem Retired.mono {s : Entities} {id : Nat} {h : EnttEntity} {j j' : Nat}
    (hr : s.Retired id h j) (hjj : j ≤ j') : s.Retired id h j' := by
  obtain ⟨sl, i, hsl, h1, h2, hver⟩ := hr.bumped
  exact ⟨hr.entry, sl, i, hsl, h1, Nat.le_trans h2 hjj, hver⟩

theorem Retired.of_destroy {s : Entities} (hs : s.Inv) {id : Nat} {e : Entity}
    (hg : s.get id = some e) :
    ({ s with registry := s.registry.destroy e.entity } : Entities).Retired id e.entity 1 := by
  obtain ⟨_, hf, hv⟩ := get_eq_some.mp hg
  refine ⟨?_, ?_⟩
  · intro h' hm
    have := IdMap.find_of_mem hs.keys_nodup hm
    rw [hf] at this
    cases this
    rfl
  · obtain ⟨sl, hsl, _, hver⟩ := Registry.valid_iff.mp hv
    refine ⟨sl.release s.registry.maxVersion, 1, ?_, Nat.le_refl 1, Nat.le_refl 1, ?_⟩
    · show (s.registry.destroy e.entity).slots[e.entity.index]? = _
      rw [Registry.destroy_getElem?, if_pos ⟨hv, rfl⟩, hsl]
      rfl
    · show (sl.version + 1) % (s.registry.maxVersion + 1)
        = (e.entity.version + 1) % ((s.registry.destroy e.entity).maxVersion + 1)
      rw [Registry.destroy_maxVersion, hver]

theorem Retired.retired_spawn {s : Entities} (hs : s.Inv) {id : Nat} {h : EnttEntity} {j : Nat}
    (hr : s.Retired id h j) (hne : id ≠ s.nextID) (c : Collab) (edef : EntityDef) (pos : Vec3) :
    (s.spawn c edef pos).2.1.Retired id h j := by
  refine ⟨?_, ?_⟩
  · intro h' hm
    rcases IdMap.mem_assign hm with h1 | h1
    · cases h1
      exact absurd rfl hne
    · exact hr.entry h' h1
  · obtain ⟨sl, i, hsl, h1, h2, hver⟩ := hr.bumped
    rw [spawn_getElem? c edef pos hs.free_lt, spawn_maxVersion]
    by_cases hi : h.index = s.registry.create.1.index
    · rw [if_pos hi]
      refine ⟨_, i, rfl, h1, h2, ?_⟩
      rw [hi] at hsl
      have := Registry.create_version _ hsl
      show s.registry.create.1.version = _
      rw [← this, hver]
    · rw [if_neg hi]
      exact ⟨sl, i, hsl, h1, h2, hver⟩

theorem Retired.retired_destroy {s : Entities} {id : Nat} {h : EnttEntity} {j : Nat}
    (hr : s.Retired id h j) (e : EnttEntity) :
    ({ s with registry := s.registry.destroy e } : Entities).Retired id h (j + 1) := by
  refine ⟨hr.entry, ?_⟩
  obtain ⟨sl, i, hsl, h1, h2, hver⟩ := hr.bumped
  show ∃ sl i, (s.registry.destroy e).slots[h.index]? = some sl ∧ 1 ≤ i ∧ i ≤ j + 1
    ∧ sl.version = (h.version + i) % ((s.registry.destroy e).maxVersion + 1)
  rw [Registry.destroy_getElem?, Registry.destroy_maxVersion]
  by_cases hc : s.registry.valid e = true ∧ e.index = h.index
  · rw [if_pos hc, hsl]
    refine ⟨sl.release s.registry.maxVersion, i + 1, rfl, by omega, by omega, ?_⟩
    show (sl.version + 1) % (s.registry.maxVersion + 1) = _
    rw [hver, Nat.mod_add_mod, Nat.add_assoc]
  · rw [if_neg hc]
    exact ⟨sl, i, hsl, h1, by omega, hver⟩

theorem Retired.retired_despawn {s : Entities} {id : Nat} {h : EnttEntity} {j : Nat}
    (hr : s.Retired id h j) {id' : Nat} {r : Entities × List ScriptCall}
    (hd : s.despawn id' = some r) : r.1.Retired id h (j + 1) := by
  rcases despawn_cases hd with ⟨_, rfl⟩ | ⟨e, _, he⟩
  · exact hr.mono (Nat.le_succ j)
  · rw [he]
    exact hr.retired_destroy e.entity

theorem Retired.absent_clean {s : Entities} {id : Nat} {h : EnttEntity} {j : Nat}
    (hr : s.Retired id h j) (hj : j ≤ s.registry.maxVersion) : s.clean.Absent id := by
  intro h' hm
  obtain ⟨hmem, hv⟩ := mem_cleanLoop.mp hm
  have hh := hr.entry h' hmem
  subst hh
  obtain ⟨sl, i, hsl, h1, h2, hver⟩ := hr.bumped
  obtain ⟨sl', hsl', _, hver'⟩ := Registry.valid_iff.mp hv
  rw [hsl] at hsl'
  cases hsl'
  rw [hver] at hver'
  exact mod_succ_ne h1 (Nat.le_trans h2 hj) hver'

theorem Absent.absent_get {s : Entities} {id : Nat} (ha : s.Absent id) : s.get id = none := by
  rw [get_eq_none]
  intro h hf
  exact absurd (IdMap.mem_of_find hf) (ha h)

theorem Absent.absent_spawn {s : Entities} {id : Nat} (ha : s.Absent id) (hne : id ≠ s.nextID)
    (c : Collab) (edef : EntityDef) (pos : Vec3) : (s.spawn c edef pos).2.1.Absent id := by
  intro h hm
  rcases IdMap.mem_assign hm with h1 | h1
  · cases h1
    exact hne rfl
  · exact ha h h1

theorem Absent.absent_despawn {s : Entities} {id : Nat} (ha : s.Absent id) {id' : Nat}
    {r : Entities × List ScriptCall} (hd : s.despawn id' = some r) : r.1.Absent id := by
  intro h hm
  rw [(despawn_frame hd).1] at hm
  exact ha h hm

theorem Absent.absent_of_clean {s : Entities} {id : Nat} (ha : s.Absent id) :
    s.clean.Absent id :=
  fun h hm => ha h (mem_cleanLoop.mp hm).1

/-! ## Sequences of lifecycle calls -/

/-- What room for a sequence that starts with a spawn call gives: the counter
has not wrapped, the spawn leaves room for the rest, and it advances the
counter by one if the rest spawns again. -/
theorem Room.room_spawn {s : Entities} {edef : EntityDef} {pos : Vec3} {ops : List Op}
    (h : s.Room (Op.spawn edef pos :: ops)) (c : Collab) :
    s.Fresh ∧ (s.spawn c edef pos).2.1.Room ops
      ∧ (Op.spawnCount ops ≠ 0 → (s.spawn c edef pos).2.1.nextID = s.nextID + 1) := by
  rcases h with h | ⟨hf, hle⟩
  · simp [Op.spawnCount] at h
  · simp only [Op.spawnCount] at hle
    refine ⟨hf, ?_, ?_⟩
    · by_cases h0 : Op.spawnCount ops = 0
      · exact Or.inl h0
      · have hroom : s.nextID + 1 < entityidSize := by omega
        refine Or.inr ⟨hf.fresh_spawn hroom c edef pos, ?_⟩
        rw [spawn_nextID edef pos hroom]
        omega
    · intro h0
      exact spawn_nextID edef pos (by omega)

theorem Room.room_despawn {s : Entities} {id : Nat} {ops : List Op}
    (h : s.Room (Op.despawn id :: ops)) {r : Entities × List ScriptCall}
    (hd : s.despawn id = some r) : r.1.Room ops := by
  rcases h with h | ⟨hf, hle⟩
  · exact Or.inl h
  · refine Or.inr ⟨hf.fresh_despawn hd, ?_⟩
    rw [(despawn_frame hd).2.1]
    exact hle

theorem Room.room_clean {s : Entities} {ops : List Op} (h : s.Room (Op.clean :: ops)) :
    s.clean.Room ops := by
  rcases h with h | ⟨hf, hle⟩
  · exact Or.inl h
  · exact Or.inr ⟨hf.fresh_clean, hle⟩

theorem run_absent (c : Collab) {id : Nat} :
    ∀ (ops : List Op) {s : Entities}, s.Inv → s.Absent id → s.Room ops →
      (Op.spawnCount ops = 0 ∨ id < s.nextID) →
      ∃ t, run c ops s = some t ∧ t.state.get id = none
  | [], s, _, ha, _, _ => ⟨⟨s, [], []⟩, rfl, ha.absent_get⟩
  | Op.spawn edef pos :: ops, s, hs, ha, hroom, hid => by
    obtain ⟨hf, hroom', hnext⟩ := hroom.room_spawn c
    have hlt : id < s.nextID := by
      rcases hid with h | h
      · simp [Op.spawnCount] at h
      · exact h
    have hid' : Op.spawnCount ops = 0 ∨ id < (s.spawn c edef pos).2.1.nextID := by
      by_cases h0 : Op.spawnCount ops = 0
      · exact Or.inl h0
      · exact Or.inr (by rw [hnext h0]; omega)
    obtain ⟨t, ht, hg⟩ := run_absent c ops (hs.inv_spawn hf c edef pos)
      (ha.absent_spawn (Nat.ne_of_lt hlt) c edef pos) hroom' hid'
    exact ⟨⟨t.state, (s.spawn c edef pos).1 :: t.ids, (s.spawn c edef pos).2.2 ++ t.calls⟩,
      by simp [run, ht], hg⟩
  | Op.despawn id' :: ops, s, hs, ha, hroom, hid => by
    obtain ⟨r, hd⟩ := despawn_total hs id'
    have hid' : Op.spawnCount ops = 0 ∨ id < r.1.nextID := by
      rw [(despawn_frame hd).2.1]
      exact hid
    obtain ⟨t, ht, hg⟩ := run_absent c ops (hs.inv_despawn hd) (ha.absent_despawn hd)
      (hroom.room_despawn hd) hid'
    exact ⟨⟨t.state, t.ids, r.2 ++ t.calls⟩, by simp [run, hd, ht], hg⟩
  | Op.clean :: ops, s, hs, ha, hroom, hid => by
    obtain ⟨t, ht, hg⟩ := run_absent c ops hs.inv_clean ha.absent_of_clean hroom.room_clean hid
    exact ⟨t, by simp [run, ht], hg⟩

theorem run_retired (c : Collab) {id : Nat} {h : EnttEntity} :
    ∀ (ops : List Op) {s : Entities} {j : Nat}, s.Inv → s.Retired id h j →
      j + Op.despawnsBeforeClean ops ≤ s.registry.maxVersion → s.Room ops →
      (Op.spawnCount ops = 0 ∨ id < s.nextID) →
      ∃ t, run c ops s = some t ∧ t.state.get id = none
  | [], s, j, _, hr, hj, _, _ => ⟨⟨s, [], []⟩, rfl, hr.get_none (by simpa [Op.despawnsBeforeClean] using hj)⟩
  | Op.spawn edef pos :: ops, s, j, hs, hr, hj, hroom, hid => by
    obtain ⟨hf, hroom', hnext⟩ := hroom.room_spawn c
    have hlt : id < s.nextID := by
      rcases hid with h | h
      · simp [Op.spawnCount] at h
      · exact h
    have hid' : Op.spawnCount ops = 0 ∨ id < (s.spawn c edef pos).2.1.nextID := by
      by_cases h0 : Op.spawnCount ops = 0
      · exact Or.inl h0
      · exact Or.inr (by rw [hnext h0]; omega)
    have hj' : j + Op.despawnsBeforeClean ops
        ≤ (s.spawn c edef pos).2.1.registry.maxVersion := by
      rw [spawn_maxVersion]
      exact hj
    obtain ⟨t, ht, hg⟩ := run_retired c ops (hs.inv_spawn hf c edef pos)
      (hr.retired_spawn hs (Nat.ne_of_lt hlt) c edef pos) hj' hroom' hid'
    exact ⟨⟨t.state, (s.spawn c edef pos).1 :: t.ids, (s.spawn c edef pos).2.2 ++ t.calls⟩,
      by simp [run, ht], hg⟩
  | Op.despawn id' :: ops, s, j, hs, hr, hj, hroom, hid => by
    obtain ⟨r, hd⟩ := despawn_total hs id'
    have hid' : Op.spawnCount ops = 0 ∨ id < r.1.nextID := by
      rw [(despawn_frame hd).2.1]
      exact hid
    have hj' : j + 1 + Op.despawnsBeforeClean ops ≤ r.1.registry.maxVersion := by
      rw [(despawn_frame hd).2.2]
      simp only [Op.despawnsBeforeClean] at hj
      omega
    obtain ⟨t, ht, hg⟩ := run_retired c ops (hs.inv_despawn hd) (hr.retired_despawn hd) hj'
      (hroom.room_despawn hd) hid'
    exact ⟨⟨t.state, t.ids, r.2 ++ t.calls⟩, by simp [run, hd, ht], hg⟩
  | Op.clean :: ops, s, j, hs, hr, hj, hroom, hid => by
    have hj0 : j ≤ s.registry.maxVersion := by
      simp only [Op.despawnsBeforeClean] at hj
      omega
    obtain ⟨t, ht, hg⟩ := run_absent c ops hs.inv_clean (hr.absent_clean hj0)
      hroom.room_clean hid
    exact ⟨t, by simp [run, ht], hg⟩

theorem run_ids (c : Collab) :
    ∀ (ops : List Op) {s : Entities}, s.Inv → s.Room ops →
      ∃ t, run c ops s = some t ∧ t.ids = List.range' s.nextID (Op.spawnCount ops)
  | [], s, _, _ => ⟨⟨s, [], []⟩, rfl, rfl⟩
  | Op.spawn edef pos :: ops, s, hs, hroom => by
    obtain ⟨hf, hroom', hnext⟩ := hroom.room_spawn c
    obtain ⟨t, ht, hids⟩ := run_ids c ops (hs.inv_spawn hf c edef pos) hroom'
    refine ⟨⟨t.state, (s.spawn c edef pos).1 :: t.ids, (s.spawn c edef pos).2.2 ++ t.calls⟩,
      by simp [run, ht], ?_⟩
    show s.nextID :: t.ids = List.range' s.nextID (Op.spawnCount ops + 1)
    rw [List.range'_succ, hids]
    by_cases h0 : Op.spawnCount ops = 0
    · rw [h0]
      rfl
    · rw [hnext h0]
  | Op.despawn id' :: ops, s, hs, hroom => by
    obtain ⟨r, hd⟩ := despawn_total hs id'
    obtain ⟨t, ht, hids⟩ := run_ids c ops (hs.inv_despawn hd) (hroom.room_despawn hd)
    refine ⟨⟨t.state, t.ids, r.2 ++ t.calls⟩, by simp [run, hd, ht], ?_⟩
    rw [(despawn_frame hd).2.1] at hids
    exact hids
  | Op.clean :: ops, s, hs, hroom => by
    obtain ⟨t, ht, hids⟩ := run_ids c ops hs.inv_clean hroom.room_clean
    exact ⟨t, by simp [run, ht], hids⟩

end Entities

namespace Entities

theorem get_none_of_not_issued {s : Entities} (hf : s.Fresh) {id : Nat} (hid : s.nextID ≤ id) :
    s.get id = none := by
  rw [get_eq_none]
  intro h hfind
  have := hf _ (IdMap.mem_of_find hfind)
  exact absurd this (Nat.not_lt.mpr hid)

theorem get_none_after_despawn {s : Entities} {id : Nat}
    {r : Entities × List ScriptCall} (hd : s.despawn id = some r) : r.1.get id = none := by
  rcases despawn_cases hd with ⟨hg, rfl⟩ | ⟨e, hg, he⟩
  · exact hg
  · obtain ⟨_, hf, hv⟩ := get_eq_some.mp hg
    rw [he, get_eq_none]
    intro h hfind
    have hh : h = e.entity := by
      have h2 : IdMap.find s.entities id = some h := hfind
      rw [hf] at h2
      exact (Option.some.inj h2).symm
    subst hh
    cases hv' : (s.registry.destroy e.entity).valid e.entity with
    | false => rfl
    | true =>
      obtain ⟨sl', hsl', halive, _⟩ := Registry.valid_iff.mp hv'
      obtain ⟨sl, hsl, _, _⟩ := Registry.valid_iff.mp hv
      rw [Registry.destroy_getElem?, if_pos ⟨hv, rfl⟩, hsl] at hsl'
      cases hsl'
      simp [Slot.release] at halive

theorem spawn_slot_of_entity (c : Collab) {s : Entities} (hs : s.Inv) (edef : EntityDef)
    (pos : Vec3) :
    (s.spawn c edef pos).2.1.registry.slotOf s.registry.create.1
      = some (spawnSlot c s edef pos) := by
  have hg := spawn_get (c := c) edef pos hs.free_lt
  have hv := (get_eq_some.mp hg).2.2
  simp only at hv
  unfold Registry.slotOf
  rw [if_pos hv, spawn_getElem? c edef pos hs.free_lt, if_pos rfl]

end Entities

namespace Scenario

theorem reachable_init : Entities.Reachable stub (Entities.init 1 4094) :=
  Entities.Reachable.init 1 4094 (by decide)

theorem reachable_spawned : Entities.Reachable stub spawned :=
  Entities.Reachable.spawn crate ⟨0, 0, 0⟩ reachable_init (by decide)

theorem spawned_get : spawned.get 1 = some ⟨1, ⟨0, 0⟩⟩ := by decide

theorem spawned_despawn :
    spawned.despawn 1 = some (despawned, [ScriptCall.on_entity_despawn crate ⟨1, ⟨0, 0⟩⟩]) := by
  rfl

theorem reachable_despawned : Entities.Reachable stub despawned :=
  Entities.Reachable.despawn 1 (despawned, [ScriptCall.on_entity_despawn crate ⟨1, ⟨0, 0⟩⟩])
    reachable_spawned spawned_despawn

theorem despawned_get : despawned.get 1 = none := by decide

end Scenario

/-- C1, as amended: in every sequence of spawn, despawn and clean calls on a
reachable manager in which the id counter does not wrap (the ids the spawn
calls take all lie below the number of values of `entityid_t`), the sequence
runs to its end and the ids the spawn calls return are the consecutive values
of the counter: strictly increasing in call order, pairwise distinct, none
below the counter the sequence started from and none an id the identity map
already holds. -/
theorem Entities.spawn_ids_increasing_before_wrap (c : Collab) (s : Entities)
    (hs : Entities.Reachable c s) (ops : List Op)
    (hroom : s.nextID + Op.spawnCount ops ≤ entityidSize) :
    ∃ t, s.run c ops = some t
      ∧ t.ids = List.range' s.nextID (Op.spawnCount ops)
      ∧ t.ids.Pairwise (fun earlier later => earlier < later)
      ∧ t.ids.Nodup
      ∧ (∀ id ∈ t.ids, s.nextID ≤ id ∧ id < entityidSize)
      ∧ (∀ id ∈ t.ids, ∀ p ∈ s.entities, p.1 < id) := by
  obtain ⟨t, ht, hids⟩ := Entities.run_ids c ops hs.inv (Or.inr ⟨hs.fresh, hroom⟩)
  have hmem : ∀ id ∈ t.ids, s.nextID ≤ id ∧ id < entityidSize := by
    intro id hid
    rw [hids, List.mem_range'_1] at hid
    exact ⟨hid.1, by omega⟩
  refine ⟨t, ht, hids, ?_, ?_, hmem, ?_⟩
  · rw [hids]
    exact List.pairwise_lt_range' _ _
  · rw [hids]
    exact List.nodup_range' _ _
  · intro id hid p hp
    exact Nat.lt_of_lt_of_le (hs.fresh p hp) (hmem id hid).1

/-- Witness of C1: spawn, despawn, clean and spawn again on a new manager
whose counter starts at 1 returns the ids 1 and 2. -/
theorem Entities.spawn_ids_increasing_before_wrap_witness :
    Entities.Reachable Scenario.stub (Entities.init 1 4094)
      ∧ (Entities.init 1 4094).nextID
          + Op.spawnCount [Op.spawn Scenario.crate ⟨0, 0, 0⟩, Op.despawn 1, Op.clean,
              Op.spawn Scenario.crate ⟨0, 0, 0⟩] ≤ entityidSize
      ∧ ((Entities.init 1 4094).run Scenario.stub
          [Op.spawn Scenario.crate ⟨0, 0, 0⟩, Op.despawn 1, Op.clean,
            Op.spawn Scenario.crate ⟨0, 0, 0⟩]).map Trace.ids = some [1, 2]
      ∧ ∃ t, (Entities.init 1 4094).run Scenario.stub
          [Op.spawn Scenario.crate ⟨0, 0, 0⟩, Op.despawn 1, Op.clean,
            Op.spawn Scenario.crate ⟨0, 0, 0⟩] = some t
        ∧ t.ids = List.range' (Entities.init 1 4094).nextID
            (Op.spawnCount [Op.spawn Scenario.crate ⟨0, 0, 0⟩, Op.despawn 1, Op.clean,
              Op.spawn Scenario.crate ⟨0, 0, 0⟩])
        ∧ t.ids.Pairwise (fun earlier later => earlier < later)
        ∧ t.ids.Nodup
        ∧ (∀ id ∈ t.ids, (Entities.init 1 4094).nextID ≤ id ∧ id < entityidSize)
        ∧ (∀ id ∈ t.ids, ∀ p ∈ (Entities.init 1 4094).entities, p.1 < id) :=
  ⟨Scenario.reachable_init, by decide, by decide,
    Entities.spawn_ids_increasing_before_wrap Scenario.stub (Entities.init 1 4094)
      Scenario.reachable_init _ (by decide)⟩

/-- Counterexample to C1 as stated: on a new manager whose counter starts at
the last value of `entityid_t`, two spawn calls return 2^64 - 1 and then 0. -/
theorem Entities.spawn_ids_wrap :
    Entities.Reachable Scenario.stub (Entities.init (2 ^ 64 - 1) 4094)
      ∧ ((Entities.init (2 ^ 64 - 1) 4094).run Scenario.stub
          [Op.spawn Scenario.crate ⟨0, 0, 0⟩, Op.spawn Scenario.crate ⟨0, 0, 0⟩]).map Trace.ids
          = some [2 ^ 64 - 1, 0]
      ∧ ¬ ∃ t, (Entities.init (2 ^ 64 - 1) 4094).run Scenario.stub
          [Op.spawn Scenario.crate ⟨0, 0, 0⟩, Op.spawn Scenario.crate ⟨0, 0, 0⟩] = some t
        ∧ t.ids.Pairwise (fun earlier later => earlier < later) := by
  have hids : ((Entities.init (2 ^ 64 - 1) 4094).run Scenario.stub
      [Op.spawn Scenario.crate ⟨0, 0, 0⟩, Op.spawn Scenario.crate ⟨0, 0, 0⟩]).map Trace.ids
      = some [2 ^ 64 - 1, 0] := by decide
  refine ⟨Entities.Reachable.init _ _ (by decide), hids, ?_⟩
  rintro ⟨t, ht, hp⟩
  rw [ht] at hids
  have h2 : t.ids = [2 ^ 64 - 1, 0] := Option.some.inj hids
  rw [h2] at hp
  exact absurd hp (by decide)

/-- C2: on a reachable manager, looking up the id a spawn call returned yields
a valid entity whose Transform has the spawn position, size (1/4, 1/4, 1/4)
and identity rotation, and whose Rigidbody is enabled with a hitbox at the
spawn position sized by the definition's hitbox. -/
theorem Entities.spawn_then_get (c : Collab) (s : Entities) (hs : Entities.Reachable c s)
    (edef : EntityDef) (pos : Vec3) :
    ∃ e transform hitbox,
      (s.spawn c edef pos).2.1.get (s.spawn c edef pos).1 = some e
        ∧ e.id = (s.spawn c edef pos).1
        ∧ e.isValid (s.spawn c edef pos).2.1 = true
        ∧ e.getTransform (s.spawn c edef pos).2.1 = some transform
        ∧ transform.pos = pos
        ∧ transform.size = ⟨1 / 4, 1 / 4, 1 / 4⟩
        ∧ transform.rot = ⟨⟨1, 0, 0⟩, ⟨0, 1, 0⟩, ⟨0, 0, 1⟩⟩
        ∧ e.getRigidbody (s.spawn c edef pos).2.1 = some ⟨true, hitbox⟩
        ∧ hitbox.position = pos
        ∧ hitbox.halfsize = edef.hitbox := by
  have hg := Entities.spawn_get (c := c) edef pos hs.inv.free_lt
  have hsl := Entities.spawn_slot_of_entity c hs.inv edef pos
  refine ⟨⟨s.nextID, s.registry.create.1⟩,
    { pos := pos, size := (Vec3.splat 1).divScalar 4, rot := Mat3.identity,
      combined := Mat4.zero },
    Hitbox.create pos edef.hitbox, hg, rfl,
    (Entities.get_eq_some.mp hg).2.2, ?_, rfl, ?_, rfl, ?_, rfl, rfl⟩
  · simp only [Entity.getTransform, Registry.getTransform, hsl]
    rfl
  · norm_num [Vec3.splat, Vec3.divScalar]
  · simp only [Entity.getRigidbody, Registry.getRigidbody, hsl]
    rfl

/-- Witness of C2: the first spawn on a new manager. -/
theorem Entities.spawn_then_get_witness :
    Entities.Reachable Scenario.stub (Entities.init 1 4094)
      ∧ ∃ e transform hitbox,
        ((Entities.init 1 4094).spawn Scenario.stub Scenario.crate ⟨3, 4, 5⟩).2.1.get
            ((Entities.init 1 4094).spawn Scenario.stub Scenario.crate ⟨3, 4, 5⟩).1 = some e
          ∧ e.id = ((Entities.init 1 4094).spawn Scenario.stub Scenario.crate ⟨3, 4, 5⟩).1
          ∧ e.isValid ((Entities.init 1 4094).spawn Scenario.stub Scenario.crate ⟨3, 4, 5⟩).2.1 = true
          ∧ e.getTransform ((Entities.init 1 4094).spawn Scenario.stub Scenario.crate ⟨3, 4, 5⟩).2.1
              = some transform
          ∧ transform.pos = ⟨3, 4, 5⟩
          ∧ transform.size = ⟨1 / 4, 1 / 4, 1 / 4⟩
          ∧ transform.rot = ⟨⟨1, 0, 0⟩, ⟨0, 1, 0⟩, ⟨0, 0, 1⟩⟩
          ∧ e.getRigidbody ((Entities.init 1 4094).spawn Scenario.stub Scenario.crate ⟨3, 4, 5⟩).2.1
              = some ⟨true, hitbox⟩
          ∧ hitbox.position = ⟨3, 4, 5⟩
          ∧ hitbox.halfsize = Scenario.crate.hitbox :=
  ⟨Scenario.reachable_init,
    Entities.spawn_then_get Scenario.stub (Entities.init 1 4094) Scenario.reachable_init
      Scenario.crate ⟨3, 4, 5⟩⟩

namespace Entities

/-! ## Recycling a slot until its version comes round again -/

/-- One round of spawning an entity and despawning it again recycles slot 0
and releases it once more. -/
theorem churn_round (c : Collab) {s : Entities} {id v k : Nat} (h : s.Churned id v k)
    (hroom : s.nextID + 1 < entityidSize) :
    ∃ r : Entities × List ScriptCall,
      (s.spawn c Scenario.crate ⟨0, 0, 0⟩).2.1.despawn s.nextID = some r
      ∧ r.1.Churned id v (k + 1) ∧ r.1.nextID = s.nextID + 1
      ∧ r.1.registry.maxVersion = s.registry.maxVersion := by
  obtain ⟨sl, hsl, _, hver⟩ := h.slot
  obtain ⟨hc1, hc2⟩ := Registry.create_of_free h.free hsl
  have hs1 := h.inv.inv_spawn h.fresh c Scenario.crate ⟨0, 0, 0⟩
  have hg := spawn_get (c := c) Scenario.crate ⟨0, 0, 0⟩ h.inv.free_lt
  have hv := (get_eq_some.mp hg).2.2
  obtain ⟨edef, _, hd⟩ := despawn_of_get_some hs1 hg
  have hmax := spawn_maxVersion c s Scenario.crate ⟨0, 0, 0⟩
  have hidx : s.registry.create.1.index = 0 := by rw [hc1]
  have hfr := (h.fresh.fresh_spawn hroom c Scenario.crate ⟨0, 0, 0⟩).fresh_despawn hd
  have hn := spawn_nextID (c := c) Scenario.crate ⟨0, 0, 0⟩ hroom
  refine ⟨_, hd, ⟨hs1.inv_destroy hv, hfr, ?_, ?_, ?_, ?_⟩, hn, ?_⟩
  · show ((s.spawn c Scenario.crate ⟨0, 0, 0⟩).2.1.registry.destroy s.registry.create.1).free
      = [0]
    rw [Registry.destroy_free, if_pos hv, spawn_free, hc2, hidx]
  · refine ⟨(spawnSlot c s Scenario.crate ⟨0, 0, 0⟩).release s.registry.maxVersion, ?_, rfl, ?_⟩
    · show ((s.spawn c Scenario.crate ⟨0, 0, 0⟩).2.1.registry.destroy
        s.registry.create.1).slots[0]? = _
      rw [Registry.destroy_getElem?, if_pos ⟨hv, hidx⟩,
        spawn_getElem? c Scenario.crate ⟨0, 0, 0⟩ h.inv.free_lt, if_pos hidx.symm, hmax]
      rfl
    · show (s.registry.create.1.version + 1) % (s.registry.maxVersion + 1)
        = (v + (k + 1))
          % (((s.spawn c Scenario.crate ⟨0, 0, 0⟩).2.1.registry.destroy
              s.registry.create.1).maxVersion + 1)
      rw [Registry.destroy_maxVersion, hmax, hc1]
      show (sl.version + 1) % _ = _
      rw [hver, Nat.mod_add_mod, Nat.add_assoc]
  · show IdMap.find (IdMap.assign s.entities s.nextID _) id = _
    rw [IdMap.find_assign_of_ne _ _ (Nat.ne_of_lt h.issued)]
    exact h.entry
  · show id < (s.spawn c Scenario.crate ⟨0, 0, 0⟩).2.1.nextID
    rw [spawn_nextID _ _ hroom]
    exact Nat.lt_succ_of_lt h.issued
  · show ((s.spawn c Scenario.crate ⟨0, 0, 0⟩).2.1.registry.destroy
      s.registry.create.1).maxVersion = _
    rw [Registry.destroy_maxVersion, hmax]

/-- After `n` rounds slot 0 has been released `n` more times, and a sequence
that starts with the rounds continues from there. -/
theorem churn_run (c : Collab) {id v : Nat} :
    ∀ (n : Nat) {s : Entities} {k : Nat}, s.Churned id v k → s.nextID + n < entityidSize →
      ∃ s', s'.Churned id v (k + n) ∧ s'.registry.maxVersion = s.registry.maxVersion
        ∧ ∀ ops, (run c (Scenario.churn n s.nextID ++ ops) s).map Trace.state
            = (run c ops s').map Trace.state
  | 0, s, k, h, _ => ⟨s, h, rfl, fun _ => rfl⟩
  | n + 1, s, k, h, hroom => by
    obtain ⟨r, hd, hr, hnext, hmax⟩ := churn_round c h (by omega)
    obtain ⟨s', hs', hmax', hrun⟩ := churn_run c n hr (by omega)
    refine ⟨s', (by omega : k + 1 + n = k + (n + 1)) ▸ hs', hmax'.trans hmax, ?_⟩
    intro ops
    rw [← hrun ops, hnext]
    simp only [Scenario.churn, List.cons_append, run, hd, Option.map_map]
    rfl

/-- When the version of slot 0 has come round to `v` again, the next spawn
makes the retired id resolve again. -/
theorem churn_resolves (c : Collab) {s : Entities} {id v k : Nat} (h : s.Churned id v k)
    (hk : (v + k) % (s.registry.maxVersion + 1) = v) (edef : EntityDef) (pos : Vec3) :
    (s.spawn c edef pos).2.1.get id = some ⟨id, ⟨0, v⟩⟩ := by
  obtain ⟨sl, hsl, _, hver⟩ := h.slot
  obtain ⟨hc1, _⟩ := Registry.create_of_free h.free hsl
  have hidx : s.registry.create.1.index = 0 := by rw [hc1]
  rw [get_eq_some]
  refine ⟨rfl, ?_, ?_⟩
  · show IdMap.find (IdMap.assign s.entities s.nextID _) id = _
    rw [IdMap.find_assign_of_ne _ _ (Nat.ne_of_lt h.issued)]
    exact h.entry
  · rw [Registry.valid_iff]
    refine ⟨spawnSlot c s edef pos, ?_, rfl, ?_⟩
    · show (s.spawn c edef pos).2.1.registry.slots[0]? = _
      rw [spawn_getElem? c edef pos h.inv.free_lt, if_pos hidx.symm]
    · show s.registry.create.1.version = v
      rw [hc1]
      show sl.version = v
      rw [hver, hk]

end Entities

namespace Scenario

theorem churned_despawned : despawned.Churned 1 0 1 where
  inv := reachable_despawned.inv
  fresh := reachable_despawned.fresh
  free := rfl
  slot := ⟨_, rfl, rfl, rfl⟩
  entry := rfl
  issued := by decide

end Scenario

/-- C3, as amended: on a reachable manager, despawning an id that resolves to
a live entity succeeds and a lookup of the id fails right after it; the lookup
fails as well after every later sequence of spawn, despawn and clean calls in
which the id counter does not wrap and fewer despawn calls come before the
first clean call than the storage has slot versions above 0, whether or not
clean has pruned the identity map and whether or not the slot was recycled. -/
theorem Entities.despawn_then_get_fails_before_wrap (c : Collab) (s : Entities)
    (hs : Entities.Reachable c s) (id : Nat) (e : Entity) (hg : s.get id = some e) :
    ∃ r, s.despawn id = some r ∧ r.1.get id = none
      ∧ ∀ ops : List Op, r.1.nextID + Op.spawnCount ops ≤ entityidSize →
          Op.despawnsBeforeClean ops < s.registry.maxVersion →
          ∃ t, r.1.run c ops = some t ∧ t.state.get id = none := by
  obtain ⟨edef, _, hd⟩ := Entities.despawn_of_get_some hs.inv hg
  refine ⟨_, hd, Entities.get_none_after_despawn hd, ?_⟩
  intro ops hroom hfew
  have hv := (Entities.get_eq_some.mp hg).2.2
  have hlt : id < s.nextID :=
    hs.fresh _ (IdMap.mem_of_find (Entities.get_eq_some.mp hg).2.1)
  refine Entities.run_retired c ops (hs.inv.inv_destroy hv)
    (Entities.Retired.of_destroy hs.inv hg) ?_ (Or.inr ⟨hs.fresh, hroom⟩) (Or.inr hlt)
  show 1 + Op.despawnsBeforeClean ops ≤ (s.registry.destroy e.entity).maxVersion
  rw [Registry.destroy_maxVersion]
  omega

/-- Witness of C3: the entity with id 1 is despawned; the next spawn recycles
its slot under the next version, and id 1 stays unresolved while id 2 resolves
to the recycled slot. -/
theorem Entities.despawn_then_get_fails_before_wrap_witness :
    Entities.Reachable Scenario.stub Scenario.spawned
      ∧ Scenario.spawned.get 1 = some ⟨1, ⟨0, 0⟩⟩
      ∧ ((Scenario.despawned.run Scenario.stub [Op.spawn Scenario.crate ⟨1, 1, 1⟩]).map
          fun t => (t.state.get 1, t.state.get 2)) = some (none, some ⟨2, ⟨0, 1⟩⟩)
      ∧ ∃ r, Scenario.spawned.despawn 1 = some r ∧ r.1.get 1 = none
        ∧ ∃ t, r.1.run Scenario.stub [Op.spawn Scenario.crate ⟨1, 1, 1⟩] = some t
          ∧ t.state.get 1 = none := by
  obtain ⟨r, hd, hn, hops⟩ :=
    Entities.despawn_then_get_fails_before_wrap Scenario.stub Scenario.spawned
      Scenario.reachable_spawned 1 ⟨1, ⟨0, 0⟩⟩ Scenario.spawned_get
  have hr : r = (Scenario.despawned,
      [ScriptCall.on_entity_despawn Scenario.crate ⟨1, ⟨0, 0⟩⟩]) := by
    have h2 := Scenario.spawned_despawn
    rw [hd] at h2
    exact Option.some.inj h2
  subst hr
  exact ⟨Scenario.reachable_spawned, Scenario.spawned_get, by decide, _, hd, hn,
    hops [Op.spawn Scenario.crate ⟨1, 1, 1⟩] (by decide) (by decide)⟩

/-- Counterexample to C3 as stated: the entity with id 1 lives in slot 0 under
version 0 of a storage with the slot versions 0 to 4094 and is despawned; after
4094 rounds of spawning an entity and despawning it again, without a clean
call, the version of the slot is 0 again, and the next spawn makes the lookup
of id 1 resolve, to the new entity. With the slot versions 0 and 1 one round
is enough. -/
theorem Entities.despawn_then_get_resolves_again :
    Entities.Reachable Scenario.stub Scenario.spawned
      ∧ Scenario.spawned.get 1 = some ⟨1, ⟨0, 0⟩⟩
      ∧ Scenario.spawned.despawn 1
          = some (Scenario.despawned,
              [ScriptCall.on_entity_despawn Scenario.crate ⟨1, ⟨0, 0⟩⟩])
      ∧ (Scenario.despawned.run Scenario.stub
          (Scenario.churn 4094 2 ++ [Op.spawn Scenario.crate ⟨0, 0, 0⟩])).map
            (fun t => t.state.get 1) = some (some ⟨1, ⟨0, 0⟩⟩)
      ∧ ((Entities.init 1 1).run Scenario.stub
          [Op.spawn Scenario.crate ⟨0, 0, 0⟩, Op.despawn 1,
            Op.spawn Scenario.crate ⟨0, 0, 0⟩, Op.despawn 2,
            Op.spawn Scenario.crate ⟨0, 0, 0⟩]).map
            (fun t => t.state.get 1) = some (some ⟨1, ⟨0, 0⟩⟩) := by
  refine ⟨Scenario.reachable_spawned, Scenario.spawned_get, Scenario.spawned_despawn, ?_,
    by decide⟩
  obtain ⟨s', hs', hmax, hrun⟩ :=
    Entities.churn_run Scenario.stub 4094 Scenario.churned_despawned (by decide)
  have hk : (0 + (1 + 4094)) % (s'.registry.maxVersion + 1) = 0 := by
    rw [hmax]
    decide
  have hget := Entities.churn_resolves Scenario.stub hs' hk Scenario.crate ⟨0, 0, 0⟩
  have h2 := hrun [Op.spawn Scenario.crate ⟨0, 0, 0⟩]
  have h3 : (Scenario.despawned.run Scenario.stub
      (Scenario.churn 4094 2 ++ [Op.spawn Scenario.crate ⟨0, 0, 0⟩])).map Trace.state
      = some (s'.spawn Scenario.stub Scenario.crate ⟨0, 0, 0⟩).2.1 := by
    rw [show (2 : Nat) = Scenario.despawned.nextID from rfl, h2]
    rfl
  have h4 := congrArg (Option.map fun st : Entities => st.get 1) h3
  rw [Option.map_map] at h4
  rw [show (fun t : Trace => t.state.get 1) = (fun st : Entities => st.get 1) ∘ Trace.state
    from rfl, h4]
  exact congrArg some hget

/-- C6: despawning an id that does not resolve to a live entity returns
normally, issues no scripting call and leaves the whole state (storage,
identity map, id counter) as it was; on a reachable manager that is the case
of an id the counter has not issued yet and of an id that was despawned
already, before and after clean. -/
theorem Entities.despawn_unresolved_noop (c : Collab) (s : Entities) (id : Nat) :
    (s.get id = none → s.despawn id = some (s, []))
      ∧ (Entities.Reachable c s → s.nextID ≤ id → s.despawn id = some (s, []))
      ∧ (Entities.Reachable c s → ∀ r, s.despawn id = some r →
          r.1.despawn id = some (r.1, [])
            ∧ r.1.clean.despawn id = some (r.1.clean, [])) := by
  refine ⟨Entities.despawn_of_get_none, ?_, ?_⟩
  · intro hs hid
    exact Entities.despawn_of_get_none (Entities.get_none_of_not_issued hs.fresh hid)
  · intro hs r hd
    have hn := Entities.get_none_after_despawn hd
    refine ⟨Entities.despawn_of_get_none hn, Entities.despawn_of_get_none ?_⟩
    rw [Entities.get_clean (hs.inv.inv_despawn hd)]
    exact hn

/-- Witness of C6: on the manager whose only entity, id 1, was despawned,
despawning id 1 again or the id 7 that was never issued changes nothing. -/
theorem Entities.despawn_unresolved_noop_witness :
    Scenario.despawned.get 1 = none
      ∧ Scenario.despawned.despawn 1 = some (Scenario.despawned, [])
      ∧ Scenario.despawned.nextID ≤ 7
      ∧ Scenario.despawned.despawn 7 = some (Scenario.despawned, [])
      ∧ Scenario.spawned.despawn 1
          = some (Scenario.despawned,
              [ScriptCall.on_entity_despawn Scenario.crate ⟨1, ⟨0, 0⟩⟩])
      ∧ Scenario.despawned.clean.despawn 1 = some (Scenario.despawned.clean, []) :=
  ⟨Scenario.despawned_get,
    (Entities.despawn_unresolved_noop Scenario.stub Scenario.despawned 1).1
      Scenario.despawned_get,
    by decide,
    (Entities.despawn_unresolved_noop Scenario.stub Scenario.despawned 7).2.1
      Scenario.reachable_despawned (by decide),
    Scenario.spawned_despawn,
    ((Entities.despawn_unresolved_noop Scenario.stub Scenario.spawned 1).2.2
      Scenario.reachable_spawned _ Scenario.spawned_despawn).2⟩


namespace Entities

/-! ## Notifications of the physics pass, entity by entity -/

theorem expectedNotifications_entity (c : Collab) (e : Entity) (pre post : Hitbox) :
    ∀ call ∈ expectedNotifications c e pre post, call.entity? = some e := by
  intro call hc
  unfold expectedNotifications at hc
  split at hc
  · simp only [List.mem_singleton] at hc
    subst hc
    rfl
  · split at hc
    · simp only [List.mem_singleton] at hc
      subst hc
      rfl
    · simp at hc

theorem filter_concerns_self {e : Entity} {l : List ScriptCall}
    (h : ∀ call ∈ l, call.entity? = some e) : l.filter (ScriptCall.concerns e) = l := by
  rw [List.filter_eq_self]
  intro call hc
  simp [ScriptCall.concerns, h call hc]

theorem filter_concerns_other {e e' : Entity} {l : List ScriptCall}
    (h : ∀ call ∈ l, call.entity? = some e') (hne : e' ≠ e) :
    l.filter (ScriptCall.concerns e) = [] := by
  rw [List.filter_eq_nil_iff]
  intro call hc
  simp [ScriptCall.concerns, h call hc, hne]

/-- The calls of the physics pass about the entity of the slot at index `i`
are the calls the iteration of that slot issues. -/
theorem updatePhysics_filter (c : Collab) {s : Entities} (hs : s.Inv) (delta : ℚ)
    {r : Entities × List ScriptCall} (hr : s.updatePhysics c delta = some r)
    {i : Nat} {sl : Slot} {eid : EntityId} {transform : Transform} {rigidbody : Rigidbody}
    (hsl : s.registry.slots[i]? = some sl) (ha : sl.alive = true) (he : sl.eid = some eid)
    (ht : sl.transform = some transform) (hb : sl.rigidbody = some rigidbody)
    (hen : rigidbody.enabled = true) :
    r.2.filter (ScriptCall.concerns ⟨eid.uid, ⟨i, sl.version⟩⟩)
      = expectedNotifications c ⟨eid.uid, ⟨i, sl.version⟩⟩ rigidbody.hitbox
          (c.physicsStep rigidbody.hitbox delta 10 false 1 true) := by
  obtain ⟨l, hl, rfl⟩ := updatePhysics_eq hr
  have hslot := updatePhysicsSlot_enabled c hs delta hsl ha he ht hb hen
  show l.2.filter _ = _
  rw [updatePhysicsLoop_filter _ hl i sl _ hsl hslot]
  · exact filter_concerns_self (expectedNotifications_entity _ _ _ _)
  · intro j slj aj hj hslj haj
    rcases updatePhysicsSlot_spec c hs delta hslj with h | ⟨eidj, _, rbj, _, _, _, _, _, h⟩
    · rw [h] at haj
      cases haj
      rfl
    · rw [h] at haj
      cases haj
      refine filter_concerns_other (expectedNotifications_entity _ _ _ _) ?_
      intro heq
      exact hj (congrArg (fun x => x.entity.index) heq)

/-- The slot an enabled rigid body of the view is left in by the pass. -/
theorem updatePhysics_slot (c : Collab) {s : Entities} (hs : s.Inv) (delta : ℚ)
    {r : Entities × List ScriptCall} (hr : s.updatePhysics c delta = some r)
    {i : Nat} {sl : Slot} {eid : EntityId} {transform : Transform} {rigidbody : Rigidbody}
    (hsl : s.registry.slots[i]? = some sl) (ha : sl.alive = true) (he : sl.eid = some eid)
    (ht : sl.transform = some transform) (hb : sl.rigidbody = some rigidbody)
    (hen : rigidbody.enabled = true) :
    r.1.registry.slotOf ⟨i, sl.version⟩
      = some
          { sl with
            transform := some
              { transform with
                pos := (c.physicsStep rigidbody.hitbox delta 10 false 1 true).position }
            rigidbody := some
              { rigidbody with
                hitbox :=
                  { c.physicsStep rigidbody.hitbox delta 10 false 1 true with
                    linearDamping :=
                      if (c.physicsStep rigidbody.hitbox delta 10 false 1 true).grounded = true
                      then 24 else 0 } } } := by
  obtain ⟨l, hl, rfl⟩ := updatePhysics_eq hr
  obtain ⟨a, hsa, hai⟩ := updatePhysicsLoop_getElem? hl i sl hsl
  rw [updatePhysicsSlot_enabled c hs delta hsl ha he ht hb hen] at hsa
  simp only [Option.some.injEq] at hsa
  subst hsa
  have hv : Registry.valid { s.registry with slots := l.1 } ⟨i, sl.version⟩ = true :=
    Registry.valid_iff.mpr ⟨_, hai, ha, rfl⟩
  unfold Registry.slotOf
  rw [if_pos hv]
  exact hai

end Entities

/-- C5: one physics pass on a reachable manager runs to its end, and for every
entity of the view with an enabled Rigidbody the calls of the pass about that
entity are: exactly one "grounded" call carrying the norm of (pre-step
velocity minus post-step velocity) when the hitbox was airborne before the
step and is grounded after it; exactly one "fall" call when it was grounded
before and is airborne after; none when the grounded flag is the same before
and after. -/
theorem Entities.updatePhysics_notifications (c : Collab) (s : Entities)
    (hs : Entities.Reachable c s) (delta : ℚ) :
    ∃ r, s.updatePhysics c delta = some r ∧
      ∀ (i : Nat) (sl : Slot) (eid : EntityId) (transform : Transform) (rigidbody : Rigidbody),
        s.registry.slots[i]? = some sl → sl.alive = true → sl.eid = some eid →
        sl.transform = some transform → sl.rigidbody = some rigidbody →
        rigidbody.enabled = true →
        ∃ e, s.get eid.uid = some e
          ∧ (rigidbody.hitbox.grounded = false →
              (c.physicsStep rigidbody.hitbox delta 10 false 1 true).grounded = true →
              r.2.filter (ScriptCall.concerns e)
                = [ScriptCall.on_entity_grounded e
                    (c.length (rigidbody.hitbox.velocity.sub
                      (c.physicsStep rigidbody.hitbox delta 10 false 1 true).velocity))])
          ∧ (rigidbody.hitbox.grounded = true →
              (c.physicsStep rigidbody.hitbox delta 10 false 1 true).grounded = false →
              r.2.filter (ScriptCall.concerns e) = [ScriptCall.on_entity_fall e])
          ∧ (rigidbody.hitbox.grounded
                = (c.physicsStep rigidbody.hitbox delta 10 false 1 true).grounded →
              r.2.filter (ScriptCall.concerns e) = []) := by
  obtain ⟨r, hr⟩ := Entities.updatePhysics_total c hs.inv delta
  refine ⟨r, hr, ?_⟩
  intro i sl eid transform rigidbody hsl ha he ht hb hen
  refine ⟨⟨eid.uid, ⟨i, sl.version⟩⟩, Entities.get_of_live hs.inv hsl ha he, ?_, ?_, ?_⟩
  · intro h1 h2
    rw [Entities.updatePhysics_filter c hs.inv delta hr hsl ha he ht hb hen]
    simp [expectedNotifications, h1, h2]
  · intro h1 h2
    rw [Entities.updatePhysics_filter c hs.inv delta hr hsl ha he ht hb hen]
    simp [expectedNotifications, h1, h2]
  · intro h1
    rw [Entities.updatePhysics_filter c hs.inv delta hr hsl ha he ht hb hen]
    unfold expectedNotifications
    rw [← h1]
    cases rigidbody.hitbox.grounded <;> simp

/-- C8: one physics pass on a reachable manager runs to its end, and for every
entity of the view with an enabled Rigidbody the entity is left with a
Transform whose position is the hitbox position the physics step produced and
with a hitbox whose linear damping is 24 when it is grounded after the step
and 0 otherwise; an entity that lands at rest gets exactly one "grounded"
call, carrying the magnitude of its pre-step velocity. -/
theorem Entities.updatePhysics_syncs_transform (c : Collab) (s : Entities)
    (hs : Entities.Reachable c s) (delta : ℚ) :
    ∃ r, s.updatePhysics c delta = some r ∧
      ∀ (i : Nat) (sl : Slot) (eid : EntityId) (transform : Transform) (rigidbody : Rigidbody),
        s.registry.slots[i]? = some sl → sl.alive = true → sl.eid = some eid →
        sl.transform = some transform → sl.rigidbody = some rigidbody →
        rigidbody.enabled = true →
        ∃ e transform' hitbox',
          s.get eid.uid = some e
            ∧ e.getTransform r.1 = some transform'
            ∧ e.getRigidbody r.1 = some ⟨true, hitbox'⟩
            ∧ hitbox'.position = (c.physicsStep rigidbody.hitbox delta 10 false 1 true).position
            ∧ hitbox'.velocity = (c.physicsStep rigidbody.hitbox delta 10 false 1 true).velocity
            ∧ hitbox'.grounded = (c.physicsStep rigidbody.hitbox delta 10 false 1 true).grounded
            ∧ transform'.pos = hitbox'.position
            ∧ (hitbox'.grounded = true → hitbox'.linearDamping = 24)
            ∧ (hitbox'.grounded = false → hitbox'.linearDamping = 0)
            ∧ (rigidbody.hitbox.grounded = false → hitbox'.grounded = true →
                hitbox'.velocity = ⟨0, 0, 0⟩ →
                r.2.filter (ScriptCall.concerns e)
                  = [ScriptCall.on_entity_grounded e (c.length rigidbody.hitbox.velocity)]) := by
  obtain ⟨r, hr⟩ := Entities.updatePhysics_total c hs.inv delta
  refine ⟨r, hr, ?_⟩
  intro i sl eid transform rigidbody hsl ha he ht hb hen
  have hslot := Entities.updatePhysics_slot c hs.inv delta hr hsl ha he ht hb hen
  refine ⟨⟨eid.uid, ⟨i, sl.version⟩⟩,
    { transform with pos := (c.physicsStep rigidbody.hitbox delta 10 false 1 true).position },
    { c.physicsStep rigidbody.hitbox delta 10 false 1 true with
      linearDamping :=
        if (c.physicsStep rigidbody.hitbox delta 10 false 1 true).grounded = true
        then 24 else 0 },
    Entities.get_of_live hs.inv hsl ha he, ?_, ?_, rfl, rfl, rfl, rfl, ?_, ?_, ?_⟩
  · simp only [Entity.getTransform, Registry.getTransform, hslot]
    rfl
  · simp only [Entity.getRigidbody, Registry.getRigidbody, hslot, hen]
    rfl
  · intro h
    simp only at h
    simp [h]
  · intro h
    simp only at h
    simp [h]
  · intro h1 h2 h3
    simp only at h2 h3
    rw [Entities.updatePhysics_filter c hs.inv delta hr hsl ha he ht hb hen]
    simp [expectedNotifications, h1, h2, h3, Vec3.sub]


namespace Scenario

theorem spawned_updatePhysics :
    spawned.updatePhysics stub (2 / 125)
      = some
          ({ registry :=
              { slots :=
                  [{ version := 0, alive := true, eid := some ⟨1, crate⟩,
                     transform := some
                       { pos := ⟨0, -1 / 20, 0⟩, size := (Vec3.splat 1).divScalar 4,
                         rot := Mat3.identity, combined := Mat4.zero },
                     rigidbody := some
                       ⟨true,
                         { position := ⟨0, -1 / 20, 0⟩, halfsize := ⟨1 / 2, 1 / 2, 1 / 2⟩,
                           velocity := ⟨0, 0, 0⟩, linearDamping := 24, grounded := true }⟩,
                     scripting := some ⟨0, none⟩ }],
                free := [], maxVersion := 4094 },
             entities := [(1, ⟨0, 0⟩)], nextID := 2 },
            [ScriptCall.on_entity_grounded ⟨1, ⟨0, 0⟩⟩
              (stub.length (Vec3.sub ⟨0, 0, 0⟩ ⟨0, 0, 0⟩))]) := by
  rfl

theorem sub_zero : Vec3.sub ⟨0, 0, 0⟩ ⟨0, 0, 0⟩ = ⟨0, 0, 0⟩ := by
  simp [Vec3.sub]

theorem stub_length_zero : stub.length (Vec3.sub ⟨0, 0, 0⟩ ⟨0, 0, 0⟩) = 0 := by
  simp [stub, Vec3.sub]

end Scenario


/-- Witness of C5: the entity spawned at the origin is airborne; the stub
grounds it, and the pass issues one "grounded" call for it and nothing else. -/
theorem Entities.updatePhysics_notifications_witness :
    Entities.Reachable Scenario.stub Scenario.spawned
      ∧ (Scenario.spawned.updatePhysics Scenario.stub (2 / 125)).map Prod.snd
          = some [ScriptCall.on_entity_grounded ⟨1, ⟨0, 0⟩⟩ 0]
      ∧ ∃ r, Scenario.spawned.updatePhysics Scenario.stub (2 / 125) = some r
          ∧ Scenario.spawned.get 1 = some ⟨1, ⟨0, 0⟩⟩
          ∧ r.2.filter (ScriptCall.concerns ⟨1, ⟨0, 0⟩⟩)
              = [ScriptCall.on_entity_grounded ⟨1, ⟨0, 0⟩⟩ 0] := by
  refine ⟨Scenario.reachable_spawned, ?_, ?_⟩
  · rw [Scenario.spawned_updatePhysics, Scenario.stub_length_zero]
    rfl
  · obtain ⟨r, hr, h⟩ :=
      Entities.updatePhysics_notifications Scenario.stub Scenario.spawned
        Scenario.reachable_spawned (2 / 125)
    obtain ⟨e, hg, h1, _, _⟩ :=
      h 0 (Entities.spawnSlot Scenario.stub (Entities.init 1 4094) Scenario.crate ⟨0, 0, 0⟩)
        ⟨1, Scenario.crate⟩ _ ⟨true, Hitbox.create ⟨0, 0, 0⟩ Scenario.crate.hitbox⟩
        rfl rfl rfl rfl rfl rfl
    have he : e = ⟨1, ⟨0, 0⟩⟩ := by
      have h2 : Scenario.spawned.get 1 = some e := hg
      rw [Scenario.spawned_get] at h2
      exact (Option.some.inj h2).symm
    subst he
    refine ⟨r, hr, Scenario.spawned_get, ?_⟩
    rw [h1 rfl rfl]
    exact congrArg (fun x => [ScriptCall.on_entity_grounded ⟨1, ⟨0, 0⟩⟩ x])
      Scenario.stub_length_zero

/-- Witness of C8, the end-to-end scenario of the spec: an entity spawned at
`(0, 0, 0)` with hitbox half-extent `(0.5, 0.5, 0.5)`, a physics stub that sets
grounded, zero velocity and position `(0, -0.05, 0)`, and a pass with delta
0.016. The entity ends with `Transform.pos = (0, -0.05, 0)` and linear damping
24, and the pass issues exactly one call, the "grounded" call of the entity,
carrying the magnitude of its pre-step velocity. -/
theorem Entities.updatePhysics_syncs_transform_witness :
    Entities.Reachable Scenario.stub Scenario.spawned
      ∧ ((⟨1, ⟨0, 0⟩⟩ : Entity).getRigidbody Scenario.spawned).map
          (fun rigidbody => rigidbody.hitbox.velocity) = some ⟨0, 0, 0⟩
      ∧ ∃ r transform hitbox,
          Scenario.spawned.updatePhysics Scenario.stub (2 / 125) = some r
            ∧ Scenario.spawned.get 1 = some ⟨1, ⟨0, 0⟩⟩
            ∧ (⟨1, ⟨0, 0⟩⟩ : Entity).getTransform r.1 = some transform
            ∧ transform.pos = ⟨0, -1 / 20, 0⟩
            ∧ (⟨1, ⟨0, 0⟩⟩ : Entity).getRigidbody r.1 = some ⟨true, hitbox⟩
            ∧ hitbox.linearDamping = 24
            ∧ r.2 = [ScriptCall.on_entity_grounded ⟨1, ⟨0, 0⟩⟩
                      (Scenario.stub.length ⟨0, 0, 0⟩)]
            ∧ r.2.filter (ScriptCall.concerns ⟨1, ⟨0, 0⟩⟩)
                = [ScriptCall.on_entity_grounded ⟨1, ⟨0, 0⟩⟩
                    (Scenario.stub.length ⟨0, 0, 0⟩)] := by
  refine ⟨Scenario.reachable_spawned, rfl, ?_⟩
  obtain ⟨r, hr, h⟩ :=
    Entities.updatePhysics_syncs_transform Scenario.stub Scenario.spawned
      Scenario.reachable_spawned (2 / 125)
  obtain ⟨e, transform, hitbox, hg, htf, hrb, hpos, hvel, hgr, hsync, hdamp, _, hcall⟩ :=
    h 0 (Entities.spawnSlot Scenario.stub (Entities.init 1 4094) Scenario.crate ⟨0, 0, 0⟩)
      ⟨1, Scenario.crate⟩ _ ⟨true, Hitbox.create ⟨0, 0, 0⟩ Scenario.crate.hitbox⟩
      rfl rfl rfl rfl rfl rfl
  have he : e = ⟨1, ⟨0, 0⟩⟩ := by
    have h2 : Scenario.spawned.get 1 = some e := hg
    rw [Scenario.spawned_get] at h2
    exact (Option.some.inj h2).symm
  subst he
  refine ⟨r, transform, hitbox, hr, Scenario.spawned_get, htf, hsync.trans hpos, hrb,
    hdamp hgr, ?_, hcall rfl hgr hvel⟩
  have h3 := Scenario.spawned_updatePhysics
  rw [hr] at h3
  rw [Option.some.inj h3]
  exact congrArg (fun v => [ScriptCall.on_entity_grounded ⟨1, ⟨0, 0⟩⟩ (Scenario.stub.length v)])
    Scenario.sub_zero


/-- C9: the calls of a render pass are, entity by entity in iteration order,
nothing for an entity whose box `pos - size .. pos + size` the frustum does not
see, and one pushMatrix, draw, popMatrix sequence for an entity it sees, the
pushed matrix being `translate(pos) * scale(size) * rotate(rot)`; an entity
that is not seen keeps its slot as it was, combined matrix included, and one
that is seen has its combined matrix refreshed to the pushed matrix. The
identity map and the id counter are not touched. -/
theorem Entities.render_culls (s : Entities) (frustum : Frustum) :
    (s.render frustum).2
        = s.registry.slots.flatMap (fun sl =>
            match sl.viewTransform with
            | some t => expectedDraw frustum t
            | none => [])
      ∧ (s.render frustum).1.entities = s.entities
      ∧ (s.render frustum).1.nextID = s.nextID
      ∧ ∀ (i : Nat) (sl : Slot) (t : Transform),
          s.registry.slots[i]? = some sl → sl.viewTransform = some t →
          (frustum.isBoxVisible (t.pos.sub t.size) (t.pos.add t.size) = false →
            expectedDraw frustum t = []
              ∧ (s.render frustum).1.registry.slots[i]? = some sl)
          ∧ (frustum.isBoxVisible (t.pos.sub t.size) (t.pos.add t.size) = true →
            expectedDraw frustum t
                = [BatchCall.pushMatrix
                    (((Mat4.translation t.pos).mul (Mat4.scaling t.size)).mul
                      (Mat4.ofMat3 t.rot)),
                  BatchCall.draw "cube", BatchCall.popMatrix]
              ∧ (s.render frustum).1.registry.slots[i]?
                  = some
                      { sl with
                        transform := some
                          { t with
                            combined :=
                              ((Mat4.translation t.pos).mul (Mat4.scaling t.size)).mul
                                (Mat4.ofMat3 t.rot) } }) := by
  refine ⟨?_, rfl, rfl, ?_⟩
  · show (Entities.renderLoop frustum "cube" s.registry.slots).2 = _
    rw [Entities.renderLoop_snd]
    congr 1
    funext sl
    rw [Entities.renderSlot_eq]
    cases sl.viewTransform <;> rfl
  · intro i sl t hsl hview
    have hslot : (s.render frustum).1.registry.slots[i]?
        = some (Entities.renderSlot frustum "cube" sl).1 := by
      show (Entities.renderLoop frustum "cube" s.registry.slots).1[i]? = _
      rw [Entities.renderLoop_fst, List.getElem?_map, hsl]
      rfl
    rw [hslot, Entities.renderSlot_eq, hview]
    have htr : sl.transform = some t := by
      unfold Slot.viewTransform at hview
      split at hview
      · exact hview
      · cases hview
    constructor
    · intro hv
      refine ⟨by simp [expectedDraw, hv], ?_⟩
      simp only [hv, Bool.false_eq_true, if_false, ← htr]
    · intro hv
      refine ⟨by simp [expectedDraw, hv], ?_⟩
      simp only [hv, if_true, Transform.refresh_eq]

/-- Witness of C9: of the entities at the origin and at `(1, 1, 1)`, each of
size 1/4, the frustum sees only the second; the pass issues one push, draw,
pop sequence, for the second entity. -/
theorem Entities.render_culls_witness :
    (Scenario.pair.render Scenario.frustum).2
      = [BatchCall.pushMatrix
          ⟨⟨1 / 4, 0, 0, 0⟩, ⟨0, 1 / 4, 0, 0⟩, ⟨0, 0, 1 / 4, 0⟩, ⟨1, 1, 1, 1⟩⟩,
        BatchCall.draw "cube", BatchCall.popMatrix] := by
  rw [(Entities.render_culls Scenario.pair Scenario.frustum).1]
  have hslots : Scenario.pair.registry.slots
      = [Entities.spawnSlot Scenario.stub (Entities.init 1 4094) Scenario.crate ⟨0, 0, 0⟩,
          Entities.spawnSlot Scenario.stub Scenario.spawned Scenario.crate ⟨1, 1, 1⟩] := rfl
  rw [hslots]
  simp [Entities.spawnSlot, Slot.viewTransform, expectedDraw, Scenario.frustum, Vec3.sub,
    Vec3.add, Vec3.splat, Vec3.divScalar, Mat4.mul, Mat4.mulVec, Mat4.translation, Mat4.scaling,
    Mat4.ofMat3, Mat3.identity, Vec4.mulScalar, Vec4.add, Vec4.ofVec3]
  norm_num


/-- C10, as amended: when the decoder reports a decode error (a negative
result) on a read of an open stream, `read` writes one line naming the error
to the diagnostic channel and returns the error value `PCMStream::ERROR`,
which is not 0; the stream stays open and keeps the decoder state the failed
call left, and the next read calls the decoder again. -/
theorem ogg.OggStream.read_decode_error {VF : Type} (ov_read : VF → Nat → Int × VF)
    (st : ogg.OggStream VF) (bufferSize : Nat) (hopen : st.closed = false)
    (herr : (ov_read st.vf bufferSize).1 < 0) :
    (st.read ov_read bufferSize).ret = ogg.PCMStream.ERROR
      ∧ ogg.PCMStream.ERROR ≠ 0
      ∧ (st.read ov_read bufferSize).cerr
          = ["ogg::load_pcm: " ++ ogg.vorbis_error_message (ov_read st.vf bufferSize).1 ++ " "
              ++ toString (ov_read st.vf bufferSize).1]
      ∧ (st.read ov_read bufferSize).stream.isOpen = true
      ∧ (st.read ov_read bufferSize).stream.vf = (ov_read st.vf bufferSize).2
      ∧ ∀ n, 0 ≤ (ov_read (ov_read st.vf bufferSize).2 n).1 →
          ((st.read ov_read bufferSize).stream.read ov_read n).ret
            = (ov_read (ov_read st.vf bufferSize).2 n).1.toNat := by
  refine ⟨?_, by decide, ?_, ?_, ?_, ?_⟩
  · simp [ogg.OggStream.read, hopen, herr]
  · simp [ogg.OggStream.read, hopen, herr]
  · simp [ogg.OggStream.read, ogg.OggStream.isOpen, hopen, herr]
  · simp [ogg.OggStream.read, hopen, herr]
  · intro n hn
    simp [ogg.OggStream.read, hopen, herr, Int.not_lt.mpr hn]

/-- Witness of C10: a decoder that reports the error -3 on the first read and
delivers 4096 bytes on the second. -/
theorem ogg.OggStream.read_decode_error_witness :
    ((⟨0, false⟩ : ogg.OggStream Nat).read
        (fun vf _ => (if vf = 0 then -3 else 4096, vf + 1)) 4096).ret = ogg.PCMStream.ERROR
      ∧ ((⟨0, false⟩ : ogg.OggStream Nat).read
        (fun vf _ => (if vf = 0 then -3 else 4096, vf + 1)) 4096).cerr
          = ["ogg::load_pcm: unknown -3"]
      ∧ (((⟨0, false⟩ : ogg.OggStream Nat).read
          (fun vf _ => (if vf = 0 then -3 else 4096, vf + 1)) 4096).stream.read
            (fun vf _ => (if vf = 0 then -3 else 4096, vf + 1)) 4096).ret = 4096 := by
  have h := ogg.OggStream.read_decode_error
    (fun (vf : Nat) (_ : Nat) => ((if vf = 0 then -3 else 4096 : Int), vf + 1))
    ⟨0, false⟩ 4096 rfl (by decide)
  refine ⟨h.1, ?_, ?_⟩
  · rw [h.2.2.1]
    decide
  · rw [h.2.2.2.2.2 4096 (by decide)]
    decide

/-- Counterexample to C10 as stated: on a decode error (`ov_read` returns -3)
the read of an open stream does not return 0. -/
theorem ogg.OggStream.read_decode_error_not_zero :
    ¬ ((⟨0, false⟩ : ogg.OggStream Nat).read (fun vf _ => (-3, vf)) 4096).ret = 0 := by
  decide


/-- C7: `Transform::refresh` sets `combined` to
`translate(pos) * scale(size) * rotate(rot)` (the 3x3 rotation embedded in a
4x4 matrix), composed in that order, whatever `combined` held before; calling
it twice gives what calling it once gives, and it changes no field other than
`combined`. -/
theorem Transform.refresh_combined (t : Transform) :
    t.refresh.combined
        = ((Mat4.translation t.pos).mul (Mat4.scaling t.size)).mul (Mat4.ofMat3 t.rot)
      ∧ (∀ c : Mat4, ({ t with combined := c } : Transform).refresh = t.refresh)
      ∧ t.refresh.refresh = t.refresh
      ∧ t.refresh.pos = t.pos ∧ t.refresh.size = t.size ∧ t.refresh.rot = t.rot := by
  refine ⟨?_, fun _ => rfl, rfl, rfl, rfl, rfl⟩
  rw [Transform.refresh_eq]

end VoxelEngine
